import Mathlib

/-!
# Routine builder (`script.js`): a shallow embedding

The page script keeps three pieces of state: the conversation sent to the
completion endpoint, the chat window, and the list of selected products (DOM
nodes under `#selectedProductsList`, mirrored in `localStorage`).  The script's
functions are embedded below as pure functions over that state; whatever the
browser supplies (the outcome of a `fetch`, the loaded catalog, the text of
engine-raised errors) is an explicit argument.

Platform built-ins used by the script (`JSON.parse`, `JSON.stringify`,
`String(...)`, `String.prototype.match` with the script's one pattern,
`indexOf`, `lastIndexOf`, `substring`, `querySelector`) are modelled in the
first sections.

Modelling limits of the platform part, none of which any result below relies on:
* a JSON number is kept as the lexeme it was written with. `String(x)` and
  `JSON.stringify` print it as the built-in does when it has at most 15 significant
  digits and lies in the range of normal doubles; rounding of longer lexemes, overflow
  and underflow are not modelled;
* text is a sequence of Unicode scalar values; a `\u` escape naming a lone
  surrogate is read as U+FFFD;
* a selector `[data-id="${id}"]` is read as the CSS tokenizer reads it (escapes, line
  feeds) as long as the identifier stays inside the quoted string. An identifier that
  leaves the string, by a double quote of its own or by a final backslash that escapes
  the closing quote, is not followed further: the selector is taken to be rejected,
  as it is unless the text that follows completes a selector of its own;
* `innerHTML` templates are read as the tree they denote when the interpolated fields
  carry no markup characters.
-/

namespace RoutineBuilder

/-! ## JavaScript values -/

/-- The values `JSON.parse` can produce. -/
inductive Json where
  | null
  | bool (b : Bool)
  | num (lexeme : String)
  | str (s : String)
  | arr (items : List Json)
  | obj (members : List (String × Json))
  deriving Repr, Inhabited

mutual
/-- Decidable equality of JSON values. -/
def Json.decEq (a b : Json) : Decidable (a = b) := by
  cases a <;> cases b <;>
    first
    | exact isTrue rfl
    | exact isFalse Json.noConfusion
    | skip
  case bool.bool x y =>
    exact decidable_of_iff (x = y) (by constructor <;> intro h <;> [rw [h]; injection h])
  case num.num x y =>
    exact decidable_of_iff (x = y) (by constructor <;> intro h <;> [rw [h]; injection h])
  case str.str x y =>
    exact decidable_of_iff (x = y) (by constructor <;> intro h <;> [rw [h]; injection h])
  case arr.arr x y =>
    exact match Json.decEqList x y with
    | isTrue h => isTrue (by rw [h])
    | isFalse h => isFalse (by intro e; injection e with e; exact h e)
  case obj.obj x y =>
    exact match Json.decEqMembers x y with
    | isTrue h => isTrue (by rw [h])
    | isFalse h => isFalse (by intro e; injection e with e; exact h e)
/-- Decidable equality of lists of JSON values. -/
def Json.decEqList (a b : List Json) : Decidable (a = b) :=
  match a, b with
  | [], [] => isTrue rfl
  | [], _ :: _ => isFalse (by intro h; cases h)
  | _ :: _, [] => isFalse (by intro h; cases h)
  | x :: xs, y :: ys =>
    match Json.decEq x y, Json.decEqList xs ys with
    | isTrue h, isTrue h2 => isTrue (by rw [h, h2])
    | isFalse h, _ => isFalse (by intro e; injection e with e1 e2; exact h e1)
    | _, isFalse h => isFalse (by intro e; injection e with e1 e2; exact h e2)
/-- Decidable equality of object member lists. -/
def Json.decEqMembers (a b : List (String × Json)) : Decidable (a = b) :=
  match a, b with
  | [], [] => isTrue rfl
  | [], _ :: _ => isFalse (by intro h; cases h)
  | _ :: _, [] => isFalse (by intro h; cases h)
  | (k, x) :: xs, (l, y) :: ys =>
    if hk : k = l then
      match Json.decEq x y, Json.decEqMembers xs ys with
      | isTrue h, isTrue h2 => isTrue (by rw [hk, h, h2])
      | isFalse h, _ =>
        isFalse (by intro e; injection e with e1 e2; injection e1 with e3 e4; exact h e4)
      | _, isFalse h => isFalse (by intro e; injection e with e1 e2; exact h e2)
    else isFalse (by intro e; injection e with e1 e2; injection e1 with e3 e4; exact hk e3)
end

instance : DecidableEq Json := Json.decEq

instance {ε α : Type} [DecidableEq ε] [DecidableEq α] : DecidableEq (Except ε α)
  | Except.ok a, Except.ok b =>
    if h : a = b then isTrue (by rw [h]) else isFalse (by intro e; injection e with e; exact h e)
  | Except.error a, Except.error b =>
    if h : a = b then isTrue (by rw [h]) else isFalse (by intro e; injection e with e; exact h e)
  | Except.ok _, Except.error _ => isFalse (by intro e; cases e)
  | Except.error _, Except.ok _ => isFalse (by intro e; cases e)

/-- A JavaScript value as the script sees it: a JSON value or `undefined` (`none`). -/
abbrev JSValue := Option Json

/-- An error object: `String(err)` is its name, a colon and its message. -/
structure JSError where
  name : String
  message : String
  deriving DecidableEq, Repr

/-- `String(err)` for an error object (`Error.prototype.toString`). -/
def JSError.toString (e : JSError) : String :=
  if e.message = "" then e.name
  else if e.name = "" then e.message
  else e.name ++ ": " ++ e.message

/-- The text of errors the engine raises itself; it differs between browsers. -/
structure Engine where
  /-- Message of the `SyntaxError` raised by `JSON.parse` / `res.json()` on a text. -/
  syntaxErrorMessage : String → String
  /-- Message of the `TypeError` raised by calling `text.match` on a non-string. -/
  notAFunctionMessage : String
  /-- Message of the `TypeError` raised by reading a property of `null`. -/
  nullPropertyMessage : String → String

/-! ## Lexical helpers -/

/-- JSON white space: space, tab, line feed, carriage return. -/
def isWs (c : Char) : Bool := c = ' ' || c = '\t' || c = '\n' || c = '\r'

/-- Drop leading JSON white space. -/
def skipWs : List Char → List Char
  | [] => []
  | c :: cs => if isWs c then skipWs cs else c :: cs

/-- An ASCII decimal digit. -/
def isDigit (c : Char) : Bool := 48 ≤ c.toNat && c.toNat ≤ 57

/-- The longest run of digits at the head, and the rest. -/
def spanDigits : List Char → List Char × List Char
  | [] => ([], [])
  | c :: cs =>
    if isDigit c then
      let r := spanDigits cs
      (c :: r.1, r.2)
    else ([], c :: cs)

/-- The value of a hexadecimal digit. -/
def hexVal (c : Char) : Option Nat :=
  let n := c.toNat
  if 48 ≤ n ∧ n ≤ 57 then some (n - 48)
  else if 97 ≤ n ∧ n ≤ 102 then some (n - 87)
  else if 65 ≤ n ∧ n ≤ 70 then some (n - 55)
  else none

/-- The code unit named by four hexadecimal digits. -/
def hex4 (a b c d : Char) : Option Nat :=
  match hexVal a, hexVal b, hexVal c, hexVal d with
  | some w, some x, some y, some z => some (((w * 16 + x) * 16 + y) * 16 + z)
  | _, _, _, _ => none

/-- The character for a code unit; a surrogate on its own becomes U+FFFD. -/
def unitChar (n : Nat) : Char :=
  if 0xD800 ≤ n ∧ n ≤ 0xDFFF then Char.ofNat 0xFFFD else Char.ofNat n

/-- The grammar of a JSON number: the lexeme read and the rest of the input. -/
def lexNumber (cs : List Char) : Option (List Char × List Char) :=
  let signed : List Char × List Char :=
    match cs with
    | '-' :: r => (['-'], r)
    | _ => ([], cs)
  let intPart : Option (List Char × List Char) :=
    match signed.2 with
    | '0' :: r => some (['0'], r)
    | d :: r => if isDigit d then some (spanDigits (d :: r)) else none
    | [] => none
  match intPart with
  | none => none
  | some (ds, r1) =>
    let frac : Option (List Char × List Char) :=
      match r1 with
      | '.' :: r =>
        let fs := spanDigits r
        if fs.1 = [] then none else some ('.' :: fs.1, fs.2)
      | _ => some ([], r1)
    match frac with
    | none => none
    | some (fs, r2) =>
      let expo : Option (List Char × List Char) :=
        match r2 with
        | e :: r =>
          if e = 'e' ∨ e = 'E' then
            let sg : List Char × List Char :=
              match r with
              | '+' :: r3 => (['+'], r3)
              | '-' :: r3 => (['-'], r3)
              | _ => ([], r)
            let es := spanDigits sg.2
            if es.1 = [] then none else some (e :: sg.1 ++ es.1, es.2)
          else some ([], r2)
        | [] => some ([], r2)
      match expo with
      | none => none
      | some (es, r4) => some (signed.1 ++ ds ++ fs ++ es, r4)

/-- The body of a JSON string after its opening quote: the code units denoted (a
character written directly stands for itself) and the rest of the input after the
closing quote. -/
def lexString : List Char → Option (List Nat × List Char)
  | [] => none
  | '"' :: r => some ([], r)
  | '\\' :: 'u' :: a :: b :: c :: d :: r =>
    match hex4 a b c d with
    | none => none
    | some u => (lexString r).map fun p => (u :: p.1, p.2)
  | '\\' :: e :: r =>
    let esc : Option Char :=
      if e = '"' then some '"'
      else if e = '\\' then some '\\'
      else if e = '/' then some '/'
      else if e = 'b' then some (Char.ofNat 8)
      else if e = 'f' then some (Char.ofNat 12)
      else if e = 'n' then some '\n'
      else if e = 'r' then some '\r'
      else if e = 't' then some '\t'
      else none
    match esc with
    | none => none
    | some ch => (lexString r).map fun p => (ch.toNat :: p.1, p.2)
  | c :: r =>
    if c.toNat < 0x20 ∨ c = '\\' then none
    else (lexString r).map fun p => (c.toNat :: p.1, p.2)

/-- Code units to characters: a high surrogate followed by a low one is one character. -/
def decodeUnits : List Nat → List Char
  | [] => []
  | [u] => [unitChar u]
  | hi :: lo :: r =>
    if 0xD800 ≤ hi ∧ hi ≤ 0xDBFF ∧ 0xDC00 ≤ lo ∧ lo ≤ 0xDFFF then
      Char.ofNat (0x10000 + (hi - 0xD800) * 0x400 + (lo - 0xDC00)) :: decodeUnits r
    else unitChar hi :: decodeUnits (lo :: r)

/-! ## Objects -/

/-- The number an array-index key (`"0"`, `"1"`, … below `2^32 - 1`) stands for. -/
def arrayIndex (k : String) : Option Nat :=
  match k.data with
  | [] => none
  | ['0'] => some 0
  | c :: cs =>
    if c ≠ '0' ∧ (c :: cs).all isDigit ∧ (c :: cs).length ≤ 10 then
      let n := (c :: cs).foldl (fun acc d => acc * 10 + (d.toNat - 48)) 0
      if n < 4294967295 then some n else none
    else none

/-- Whether a member with key `k` is listed after a new array-index key `i`. -/
def listedAfter (i : Nat) (k : String) : Bool :=
  match arrayIndex k with
  | some j => decide (i < j)
  | none => true

/-- Insert a key that is not yet present: array indices first, in ascending order,
then the other keys in order of creation. -/
def insertNew (k : String) (v : Json) : List (String × Json) → List (String × Json)
  | [] => [(k, v)]
  | m :: ms =>
    match arrayIndex k with
    | some i => if listedAfter i m.1 then (k, v) :: m :: ms else m :: insertNew k v ms
    | none => m :: insertNew k v ms

/-- Overwrite the value of a key that is present, keeping its place. -/
def overwrite (k : String) (v : Json) : List (String × Json) → List (String × Json)
  | [] => []
  | m :: ms => if m.1 = k then (k, v) :: ms else m :: overwrite k v ms

/-- `CreateDataProperty`: define `k` on an object given by its member list. -/
def setProperty (ms : List (String × Json)) (kv : String × Json) : List (String × Json) :=
  if ms.any (fun m => m.1 = kv.1) then overwrite kv.1 kv.2 ms else insertNew kv.1 kv.2 ms

/-- The object a member list in source order denotes. -/
def mkObject (written : List (String × Json)) : Json :=
  Json.obj (written.foldl setProperty [])

/-! ## `JSON.parse` -/

mutual
/-- One JSON value at the head of the input (after white space), with the rest. -/
def parseValue : Nat → List Char → Option (Json × List Char)
  | 0, _ => none
  | fuel + 1, cs =>
    match skipWs cs with
    | '{' :: r =>
      match skipWs r with
      | '}' :: r2 => some (Json.obj [], r2)
      | r1 => (parseMembers fuel r1).map fun p => (mkObject p.1, p.2)
    | '[' :: r =>
      match skipWs r with
      | ']' :: r2 => some (Json.arr [], r2)
      | r1 => (parseElements fuel r1).map fun p => (Json.arr p.1, p.2)
    | '"' :: r => (lexString r).map fun p => (Json.str (String.mk (decodeUnits p.1)), p.2)
    | 't' :: 'r' :: 'u' :: 'e' :: r => some (Json.bool true, r)
    | 'f' :: 'a' :: 'l' :: 's' :: 'e' :: r => some (Json.bool false, r)
    | 'n' :: 'u' :: 'l' :: 'l' :: r => some (Json.null, r)
    | r => (lexNumber r).map fun p => (Json.num (String.mk p.1), p.2)
/-- The elements of a non-empty array, up to and including the closing bracket. -/
def parseElements : Nat → List Char → Option (List Json × List Char)
  | 0, _ => none
  | fuel + 1, cs =>
    match parseValue fuel cs with
    | none => none
    | some (v, r) =>
      match skipWs r with
      | ',' :: r2 => (parseElements fuel r2).map fun p => (v :: p.1, p.2)
      | ']' :: r2 => some ([v], r2)
      | _ => none
/-- The members of a non-empty object, up to and including the closing brace, in the
order written. -/
def parseMembers : Nat → List Char → Option (List (String × Json) × List Char)
  | 0, _ => none
  | fuel + 1, cs =>
    match skipWs cs with
    | '"' :: r =>
      match lexString r with
      | none => none
      | some (k, r1) =>
        match skipWs r1 with
        | ':' :: r2 =>
          match parseValue fuel r2 with
          | none => none
          | some (v, r3) =>
            match skipWs r3 with
            | ',' :: r4 =>
              (parseMembers fuel r4).map fun p => ((String.mk (decodeUnits k), v) :: p.1, p.2)
            | '}' :: r4 => some ([(String.mk (decodeUnits k), v)], r4)
            | _ => none
        | _ => none
    | _ => none
end

/-- `JSON.parse(text)`: the value of a text that is exactly one JSON value between
optional white space, `none` where the built-in raises a `SyntaxError`. -/
def JSON.parse (text : String) : Option Json :=
  match parseValue (text.data.length + 2) text.data with
  | none => none
  | some (v, rest) => if skipWs rest = [] then some v else none

/-! ## Conversions -/

/-- A number lexeme denotes zero: no digit `1`–`9` before the exponent. -/
def numIsZero (lexeme : String) : Bool :=
  let mantissa := lexeme.data.takeWhile fun c => c ≠ 'e' ∧ c ≠ 'E'
  mantissa.all fun c => !(49 ≤ c.toNat && c.toNat ≤ 57)

/-- The number a run of decimal digits stands for. -/
def digitsToNat (ds : List Char) : Nat :=
  ds.foldl (fun acc d => acc * 10 + (d.toNat - 48)) 0

/-- `Number::toString` for the significant digits `s` (no zero at either end) of a value
`0.s × 10^n`. -/
def formatNumber (s : List Char) (n : Int) : List Char :=
  let k : Int := s.length
  if k ≤ n ∧ n ≤ 21 then s ++ List.replicate (n - k).toNat '0'
  else if 0 < n ∧ n ≤ 21 then s.take n.toNat ++ '.' :: s.drop n.toNat
  else if -6 < n ∧ n ≤ 0 then '0' :: '.' :: List.replicate (-n).toNat '0' ++ s
  else
    let e : Int := n - 1
    let expo : List Char :=
      'e' :: (if e < 0 then '-' else '+') :: (toString e.natAbs).data
    match s with
    | [d] => d :: expo
    | d :: rest => d :: '.' :: rest ++ expo
    | [] => []

/-- `String(x)` for the number written as `lexeme`: sign, significant digits and decimal
exponent are read off the lexeme and printed as `Number::toString` prints them. That is
the built-in's output for a number of at most 15 significant digits within the range of
normal doubles (such a number is the shortest decimal of its double); a lexeme outside
that range is kept as written. -/
def numberToString (lexeme : String) : String :=
  let cs := lexeme.data
  let neg : Bool := cs.head? = some '-'
  let body := if neg then cs.drop 1 else cs
  let mantissa := body.takeWhile fun c => c ≠ 'e' ∧ c ≠ 'E'
  let expPart := (body.dropWhile fun c => c ≠ 'e' ∧ c ≠ 'E').drop 1
  let intDigits := mantissa.takeWhile fun c => c ≠ '.'
  let fracDigits := (mantissa.dropWhile fun c => c ≠ '.').drop 1
  let expNeg : Bool := expPart.head? = some '-'
  let expDigits := expPart.filter isDigit
  let all := intDigits ++ fracDigits
  let lead := (all.takeWhile fun c => c = '0').length
  let s := ((all.dropWhile fun c => c = '0').reverse.dropWhile fun c => c = '0').reverse
  if s = [] then "0"
  else if 15 < s.length ∨ 4 < expDigits.length then lexeme
  else
    let e : Int := if expNeg then -(digitsToNat expDigits : Int) else (digitsToNat expDigits : Int)
    let n : Int := (intDigits.length : Int) + e - (lead : Int)
    if n < -306 ∨ 308 < n then lexeme
    else String.mk ((if neg then ['-'] else []) ++ formatNumber s n)

/-- `ToBoolean`. -/
def truthy : JSValue → Bool
  | none => false
  | some Json.null => false
  | some (Json.bool b) => b
  | some (Json.num n) => !numIsZero n
  | some (Json.str s) => s ≠ ""
  | some (Json.arr _) => true
  | some (Json.obj _) => true

/-- `a || b`. -/
def jsOr (a b : JSValue) : JSValue := if truthy a then a else b

mutual
/-- `String(v)` for a JSON value: arrays join their elements with commas. -/
def Json.toJsString : Json → String
  | Json.null => "null"
  | Json.bool b => if b then "true" else "false"
  | Json.num n => numberToString n
  | Json.str s => s
  | Json.arr items => String.intercalate "," (Json.joinItems items)
  | Json.obj _ => "[object Object]"
/-- The pieces `Array.prototype.join` joins: `null` contributes the empty text. -/
def Json.joinItems : List Json → List String
  | [] => []
  | Json.null :: rest => "" :: Json.joinItems rest
  | v :: rest => Json.toJsString v :: Json.joinItems rest
end

/-- `String(v)`, also the text a template literal interpolates for `v`. -/
def jsString : JSValue → String
  | none => "undefined"
  | some v => v.toJsString

/-- `v.key` for a value that is neither `null` nor `undefined` and a key that no
prototype defines: only objects have it. -/
def getProp (v : Json) (key : String) : JSValue :=
  match v with
  | Json.obj members => (members.find? fun m => m.1 = key).map Prod.snd
  | _ => none

/-- `v?.key`: `undefined` when `v` is `null` or `undefined`. -/
def optProp (v : JSValue) (key : String) : JSValue :=
  match v with
  | none => none
  | some Json.null => none
  | some x => getProp x key

/-- `v?.[0]`: the first element of an array, the first character of a string, the
member `"0"` of an object. -/
def optIndex0 (v : JSValue) : JSValue :=
  match v with
  | some (Json.arr items) => items.head?
  | some (Json.str s) => s.data.head?.map fun c => Json.str (String.mk [c])
  | some (Json.obj members) => getProp (Json.obj members) "0"
  | _ => none

/-! ## `JSON.stringify` -/

/-- Four lower-case hexadecimal digits. -/
def hexDigits4 (n : Nat) : List Char :=
  let digit (d : Nat) : Char := if d < 10 then Char.ofNat (48 + d) else Char.ofNat (87 + d)
  [digit (n / 4096 % 16), digit (n / 256 % 16), digit (n / 16 % 16), digit (n % 16)]

/-- The escape `JSON.stringify` writes for one character of a string. -/
def quoteChar (c : Char) : List Char :=
  if c = '"' then ['\\', '"']
  else if c = '\\' then ['\\', '\\']
  else if c.toNat = 8 then ['\\', 'b']
  else if c.toNat = 12 then ['\\', 'f']
  else if c = '\n' then ['\\', 'n']
  else if c = '\r' then ['\\', 'r']
  else if c = '\t' then ['\\', 't']
  else if c.toNat < 0x20 then '\\' :: 'u' :: hexDigits4 c.toNat
  else [c]

/-- `QuoteJSONString`. -/
def quoteJson (s : String) : String :=
  String.mk ('"' :: (s.data.flatMap quoteChar) ++ ['"'])

mutual
/-- `SerializeJSONProperty` with the current indentation `indent` and the unit `gap`. -/
def stringifyWith (gap indent : String) : Json → String
  | Json.null => "null"
  | Json.bool b => if b then "true" else "false"
  | Json.num n => numberToString n
  | Json.str s => quoteJson s
  | Json.arr [] => "[]"
  | Json.arr (x :: xs) =>
    if gap = "" then "[" ++ String.intercalate "," (stringifyItems gap (indent ++ gap) (x :: xs)) ++ "]"
    else
      "[\n" ++ indent ++ gap
        ++ String.intercalate (",\n" ++ indent ++ gap) (stringifyItems gap (indent ++ gap) (x :: xs))
        ++ "\n" ++ indent ++ "]"
  | Json.obj [] => "\x7b\x7d"
  | Json.obj (m :: ms) =>
    if gap = "" then
      "\x7b" ++ String.intercalate "," (stringifyMembers gap (indent ++ gap) (m :: ms)) ++ "\x7d"
    else
      "\x7b\n" ++ indent ++ gap
        ++ String.intercalate (",\n" ++ indent ++ gap) (stringifyMembers gap (indent ++ gap) (m :: ms))
        ++ "\n" ++ indent ++ "\x7d"
/-- The serialized elements of an array. -/
def stringifyItems (gap indent : String) : List Json → List String
  | [] => []
  | x :: xs => stringifyWith gap indent x :: stringifyItems gap indent xs
/-- The serialized members of an object. -/
def stringifyMembers (gap indent : String) : List (String × Json) → List String
  | [] => []
  | (k, v) :: ms =>
    (quoteJson k ++ (if gap = "" then ":" else ": ") ++ stringifyWith gap indent v)
      :: stringifyMembers gap indent ms
end

/-- `JSON.stringify(value)`. -/
def JSON.stringify (value : Json) : String := stringifyWith "" "" value

/-- `JSON.stringify(value, null, 2)`. -/
def JSON.stringify2 (value : Json) : String := stringifyWith "  " "" value

/-! ## Text built-ins used by `tryExtractJson` -/

/-- `text.indexOf(c)` for a one-character search text; `none` stands for `-1`. -/
def indexOf (c : Char) : List Char → Option Nat
  | [] => none
  | x :: xs => if x = c then some 0 else (indexOf c xs).map (· + 1)

/-- `text.lastIndexOf(c)` for a one-character search text; `none` stands for `-1`. -/
def lastIndexOf (c : Char) : List Char → Option Nat
  | [] => none
  | x :: xs =>
    match lastIndexOf c xs with
    | some i => some (i + 1)
    | none => if x = c then some 0 else none

/-- `text.substring(a, b)`: the characters from the smaller index up to the larger. -/
def substring (text : String) (a b : Nat) : String :=
  String.mk ((text.data.take (max a b)).drop (min a b))

/-- The text after a literal at the head of the input. -/
def dropLiteral : List Char → List Char → Option (List Char)
  | [], s => some s
  | _ :: _, [] => none
  | l :: ls, c :: cs => if c = l then dropLiteral ls cs else none

/-- ASCII lower case of a character. -/
def asciiLower (c : Char) : Char :=
  if 65 ≤ c.toNat ∧ c.toNat ≤ 90 then Char.ofNat (c.toNat + 32) else c

/-- The text after a lower-case literal at the head of the input, letters compared
without regard to case (the pattern's `i` flag). -/
def dropLiteralCI : List Char → List Char → Option (List Char)
  | [], s => some s
  | _ :: _, [] => none
  | l :: ls, c :: cs => if asciiLower c = l then dropLiteralCI ls cs else none

/-- The lazy group `([\s\S]*?)` followed by a line feed and three backticks: the
shortest text before the first such closing. -/
def lazyInterior : List Char → Option (List Char)
  | [] => none
  | c :: cs =>
    if ("\n```".data).isPrefixOf (c :: cs) then some []
    else (lazyInterior cs).map (c :: ·)

/-- The pattern of `tryExtractJson` tried at the head of the input: three backticks, an
optional `json` (tried first), a line feed, the lazy group, the closing. The result is
the group. -/
def fenceAt (s : List Char) : Option (List Char) :=
  match dropLiteral ("```".data) s with
  | none => none
  | some r =>
    let labelled : Option (List Char) :=
      match dropLiteralCI ("json".data) r with
      | some ('\n' :: r2) => lazyInterior r2
      | _ => none
    match labelled with
    | some g => some g
    | none =>
      match r with
      | '\n' :: r2 => lazyInterior r2
      | _ => none

/-- The leftmost match of the pattern in a character sequence. -/
def fenceFrom : List Char → Option (List Char)
  | [] => none
  | c :: cs =>
    match fenceAt (c :: cs) with
    | some g => some g
    | none => fenceFrom cs

/-- Group 1 of the first match of the fence pattern in `text` (`text.match(…)` without the
`g` flag), `none` when the pattern does not match. -/
def matchFence (text : String) : Option String :=
  (fenceFrom text.data).map String.mk

/-- The candidate of the last strategy: the text from the first opening brace to the last
closing brace, when both exist and the closing one comes later. -/
def braceSpan (text : String) : Option String :=
  match indexOf '{' text.data, lastIndexOf '}' text.data with
  | some first, some last => if last > first then some (substring text first (last + 1)) else none
  | _, _ => none

/-! ## Chat helpers (`script.js` 12–92) -/

/-- One pass of `.replace(/c/g, by)`. -/
def replaceAll (c : Char) (replacement : String) (s : String) : String :=
  String.mk (s.data.flatMap fun x => if x = c then replacement.data else [x])

/-- `escapeHtml(str)`. -/
def escapeHtml (str : JSValue) : String :=
  replaceAll '\'' "&#39;"
    (replaceAll '"' "&quot;"
      (replaceAll '>' "&gt;"
        (replaceAll '<' "&lt;"
          (replaceAll '&' "&amp;" (jsString str)))))

/-- `tryExtractJson(text)`: the whole text, else the interior of the first fenced block,
else the span from the first opening brace to the last closing brace; `null` when no
strategy parses. A parse failure is caught each time; the one error that escapes is the
`TypeError` of calling `match` on a text that is not a string. -/
def tryExtractJson (E : Engine) (text : Json) : Except JSError Json :=
  if !truthy (some text) then Except.ok Json.null
  else
    match JSON.parse (jsString (some text)) with
    | some v => Except.ok v
    | none =>
      match text with
      | Json.str t =>
        let fenced : Option Json :=
          match matchFence t with
          | some interior => if interior ≠ "" then JSON.parse interior else none
          | none => none
        match fenced with
        | some v => Except.ok v
        | none =>
          match braceSpan t with
          | some candidate =>
            match JSON.parse candidate with
            | some v => Except.ok v
            | none => Except.ok Json.null
          | none => Except.ok Json.null
      | _ => Except.error ⟨"TypeError", E.notAFunctionMessage⟩

/-- `Array.isArray(v)`. -/
def isArray : JSValue → Bool
  | some (Json.arr _) => true
  | _ => false

/-- The markup `renderRoutineAsHtml` adds for one step of the routine. -/
def renderStep (E : Engine) (step : Json) : Except JSError String :=
  match step with
  | Json.str _ => Except.ok ("<li>" ++ escapeHtml (some step) ++ "</li>")
  | Json.null => Except.error ⟨"TypeError", E.nullPropertyMessage "title"⟩
  | Json.arr _ | Json.obj _ =>
    let title := jsOr (jsOr (getProp step "title") (getProp step "step")) (some (Json.str ""))
    let instr :=
      jsOr (jsOr (jsOr (getProp step "instruction") (getProp step "instruction_text"))
        (getProp step "text")) (some (Json.str ""))
    Except.ok ("<li><strong>" ++ escapeHtml title ++ "</strong>: " ++ escapeHtml instr ++ "</li>")
  | _ => Except.ok ""

/-- The markup of all steps, in order; the first error ends the loop. -/
def renderSteps (E : Engine) : List Json → Except JSError String
  | [] => Except.ok ""
  | step :: rest =>
    match renderStep E step with
    | Except.error e => Except.error e
    | Except.ok li =>
      match renderSteps E rest with
      | Except.error e => Except.error e
      | Except.ok more => Except.ok (li ++ more)

/-- `renderRoutineAsHtml(parsed)`. -/
def renderRoutineAsHtml (E : Engine) (parsed : Json) : Except JSError String :=
  match parsed with
  | Json.null => Except.error ⟨"TypeError", E.nullPropertyMessage "title"⟩
  | _ =>
    let heading : String :=
      if truthy (getProp parsed "title") then "<h3>" ++ escapeHtml (getProp parsed "title") ++ "</h3>"
      else ""
    let body : Except JSError String :=
      match getProp parsed "routine" with
      | some (Json.arr steps) =>
        match renderSteps E steps with
        | Except.error e => Except.error e
        | Except.ok lis => Except.ok ("<ol class='routine-steps'>" ++ lis ++ "</ol>")
      | _ => Except.ok ("<pre>" ++ escapeHtml (some (Json.str (JSON.stringify2 parsed))) ++ "</pre>")
    match body with
    | Except.error e => Except.error e
    | Except.ok b =>
      Except.ok ("<div class=\"chat-msg assistant\"><div class=\"chat-assistant\">"
        ++ heading ++ b ++ "</div></div>")

/-! ## The document -/

/-- A node of the document: an element with attributes and children, or text. -/
inductive DomNode where
  | element (tag : String) (attrs : List (String × String)) (children : List DomNode)
  | text (data : String)
  deriving Repr, Inhabited

mutual
/-- Decidable equality of nodes. -/
def DomNode.decEq (a b : DomNode) : Decidable (a = b) :=
  match a, b with
  | DomNode.text x, DomNode.text y =>
    if h : x = y then isTrue (by rw [h]) else isFalse (by intro e; injection e with e; exact h e)
  | DomNode.text _, DomNode.element _ _ _ => isFalse DomNode.noConfusion
  | DomNode.element _ _ _, DomNode.text _ => isFalse DomNode.noConfusion
  | DomNode.element t a c, DomNode.element u b d =>
    if h : t = u ∧ a = b then
      match DomNode.decEqList c d with
      | isTrue h2 => isTrue (by rw [h.1, h.2, h2])
      | isFalse h2 => isFalse (by intro e; injection e with e1 e2 e3; exact h2 e3)
    else isFalse (by intro e; injection e with e1 e2 e3; exact h ⟨e1, e2⟩)
/-- Decidable equality of node lists. -/
def DomNode.decEqList (a b : List DomNode) : Decidable (a = b) :=
  match a, b with
  | [], [] => isTrue rfl
  | [], _ :: _ => isFalse (by intro h; cases h)
  | _ :: _, [] => isFalse (by intro h; cases h)
  | x :: xs, y :: ys =>
    match DomNode.decEq x y, DomNode.decEqList xs ys with
    | isTrue h, isTrue h2 => isTrue (by rw [h, h2])
    | isFalse h, _ => isFalse (by intro e; injection e with e1 e2; exact h e1)
    | _, isFalse h => isFalse (by intro e; injection e with e1 e2; exact h e2)
end

instance : DecidableEq DomNode := DomNode.decEq

/-- `el.getAttribute(name)`; `none` stands for `null`. -/
def DomNode.getAttribute (n : DomNode) (name : String) : Option String :=
  match n with
  | DomNode.element _ attrs _ => (attrs.find? fun a => a.1 = name).map Prod.snd
  | DomNode.text _ => none

/-- The selector `[data-id]`. -/
def hasDataId (n : DomNode) : Bool := (n.getAttribute "data-id").isSome

/-- The elements an attribute selector `[data-id="…"]` matches when the quoted string
denotes `value`. -/
def dataIdIs (value : String) (n : DomNode) : Bool := n.getAttribute "data-id" = some value

/-! ### Selectors built from an identifier

The script builds its selectors by interpolation, `[data-id="${id}"]`, so the
identifier is read by the CSS tokenizer as the inside of a quoted string. -/

/-- The input preprocessing of the CSS tokenizer: carriage return, form feed and the
pair carriage return, line feed become a line feed; NUL becomes U+FFFD. The flag says
that the character before was a carriage return. -/
def cssPreprocess (afterCR : Bool) : List Char → List Char
  | [] => []
  | c :: cs =>
    if c = '\n' ∧ afterCR = true then cssPreprocess false cs
    else if c = '\r' then '\n' :: cssPreprocess true cs
    else if c.toNat = 12 then '\n' :: cssPreprocess false cs
    else if c.toNat = 0 then Char.ofNat 0xFFFD :: cssPreprocess false cs
    else c :: cssPreprocess false cs

/-- The character a hexadecimal escape denotes: zero, a surrogate and a number past
U+10FFFF give U+FFFD. -/
def cssCodePoint (v : Nat) : Char :=
  if v = 0 ∨ (0xD800 ≤ v ∧ v ≤ 0xDFFF) ∨ 0x10FFFF < v then Char.ofNat 0xFFFD else Char.ofNat v

/-- Where the tokenizer stands inside the quoted string. -/
inductive CssState where
  | text
  | escape
  | hex (count value : Nat)
  deriving DecidableEq, Repr

/-- The characters a quoted CSS string denotes when the interpolated identifier is its
whole inside, read from the given state; the closing quote the script writes follows the
input. `none` where `querySelector` raises a `SyntaxError`: a line feed inside the string;
and, taken as invalid here, a double quote that ends the string before the identifier
does and a final backslash that escapes the closing quote. -/
def cssString : CssState → List Char → Option (List Char)
  | CssState.text, [] => some []
  | CssState.escape, [] => none
  | CssState.hex _ v, [] => some [cssCodePoint v]
  | CssState.text, c :: cs =>
    if c = '"' ∨ c = '\n' then none
    else if c = '\\' then cssString CssState.escape cs
    else (cssString CssState.text cs).map (c :: ·)
  | CssState.escape, c :: cs =>
    if c = '\n' then cssString CssState.text cs
    else
      match hexVal c with
      | some d => cssString (CssState.hex 1 d) cs
      | none => (cssString CssState.text cs).map (c :: ·)
  | CssState.hex k v, c :: cs =>
    match hexVal c with
    | some d =>
      if k < 6 then cssString (CssState.hex (k + 1) (v * 16 + d)) cs
      else (cssString CssState.text cs).map fun r => cssCodePoint v :: c :: r
    | none =>
      if c = ' ' ∨ c = '\t' ∨ c = '\n' then
        (cssString CssState.text cs).map (cssCodePoint v :: ·)
      else if c = '"' then none
      else if c = '\\' then (cssString CssState.escape cs).map (cssCodePoint v :: ·)
      else (cssString CssState.text cs).map fun r => cssCodePoint v :: c :: r

/-- The attribute value that the selector `[data-id="id"]`, built by interpolation, asks
for; `none` where `querySelector` raises a `SyntaxError` instead. -/
def selectorValue (id : String) : Option String :=
  (cssString CssState.text (cssPreprocess false id.data)).map String.mk

/-- An identifier that a quoted CSS string reads as itself: no double quote, backslash,
line feed, carriage return, form feed or NUL. -/
def plainIdentifier (id : String) : Bool :=
  id.data.all fun c =>
    c ≠ '"' ∧ c ≠ '\\' ∧ c ≠ '\n' ∧ c ≠ '\r' ∧ c.toNat ≠ 12 ∧ c.toNat ≠ 0

mutual
/-- An element and the elements below it, in document order. -/
def DomNode.subtree : DomNode → List DomNode
  | DomNode.element tag attrs children =>
    DomNode.element tag attrs children :: DomNode.subtrees children
  | DomNode.text _ => []
/-- The elements of a list of sibling trees, in document order. -/
def DomNode.subtrees : List DomNode → List DomNode
  | [] => []
  | n :: ns => DomNode.subtree n ++ DomNode.subtrees ns
end

/-- `root.querySelectorAll(sel)` for a root with the given children. -/
def querySelectorAll (sel : DomNode → Bool) (children : List DomNode) : List DomNode :=
  (DomNode.subtrees children).filter sel

/-- `root.querySelector(sel)` for a root with the given children. -/
def querySelector (sel : DomNode → Bool) (children : List DomNode) : Option DomNode :=
  (DomNode.subtrees children).find? sel

/-- Whether a node is an element that a selector matches. -/
def matchesSelector (sel : DomNode → Bool) : DomNode → Bool
  | DomNode.element tag attrs children => sel (DomNode.element tag attrs children)
  | DomNode.text _ => false

mutual
/-- Detach the first element below `n` (in document order) that matches `sel`. -/
def DomNode.removeBelow (sel : DomNode → Bool) : DomNode → Option DomNode
  | DomNode.element tag attrs children =>
    (DomNode.removeFirst sel children).map (DomNode.element tag attrs)
  | DomNode.text _ => none
/-- Detach the first element of the sibling trees (in document order) that matches
`sel`: `root.querySelector(sel).remove()`. `none` when no element matches. -/
def DomNode.removeFirst (sel : DomNode → Bool) : List DomNode → Option (List DomNode)
  | [] => none
  | n :: ns =>
    if matchesSelector sel n then some ns
    else
      match DomNode.removeBelow sel n with
      | some n2 => some (n2 :: ns)
      | none => (DomNode.removeFirst sel ns).map (n :: ·)
end

/-- A card of the product grid (`.product-card`). -/
structure Card where
  dataId : String
  selected : Bool
  ariaPressed : String
  deriving DecidableEq, Repr

/-- A message of the conversation. -/
structure Message where
  role : String
  content : Json
  deriving DecidableEq, Repr

/-- A wrapper `div` appended to the chat window. -/
structure ChatNode where
  className : String
  innerHTML : String
  deriving DecidableEq, Repr

/-- The state the script reads and writes. -/
structure App where
  /-- The module variable `conversationMessages`. -/
  conversationMessages : List Message
  /-- The children of `#chatWindow`. -/
  chatWindow : List ChatNode
  /-- The children of `#selectedProductsList`. -/
  selectedProductsList : List DomNode
  /-- The cards of `#productsContainer`. -/
  productsContainer : List Card
  /-- The stored text under the key `selectedProducts`, if any. -/
  localStorage : Option String
  /-- The selector texts on which `querySelector` raised a `SyntaxError`. No handler of
  the script catches it: the function that asked ends there. -/
  rejectedSelectors : List String
  deriving DecidableEq, Repr

/-- The page as loaded, before any event. -/
def App.init : App := ⟨[], [], [], [], none, []⟩

/-- `appendChatMessage(role, text)`. -/
def appendChatMessage (role : String) (text : JSValue) (s : App) : App :=
  let inner : String :=
    if role = "user" then "<div class=\"chat-user\">" ++ escapeHtml text ++ "</div>"
    else "<div class=\"chat-assistant\">" ++ jsString text ++ "</div>"
  { s with chatWindow := s.chatWindow ++ [⟨"chat-msg " ++ role, inner⟩] }

/-- `appendChatHtml(html)`. -/
def appendChatHtml (html : String) (s : App) : App :=
  { s with chatWindow := s.chatWindow ++ [⟨"chat-html", html⟩] }

/-- The markup both `catch` blocks append for a caught error. -/
def errorHtml (err : JSError) : String :=
  "<div class=\"error\">" ++ escapeHtml (some (Json.str err.toString)) ++ "</div>"

/-! ## The completion endpoint -/

/-- A response of the endpoint: its status and its body text. -/
structure Response where
  status : Nat
  body : String
  deriving DecidableEq, Repr

/-- `res.ok`: the status is in the range 200–299. -/
def Response.ok (res : Response) : Bool := 200 ≤ res.status && res.status ≤ 299

/-- What awaiting `fetch(…)` gives: a rejection with an error, or a response. -/
inductive FetchOutcome where
  | rejected (err : JSError)
  | response (res : Response)
  deriving DecidableEq, Repr

/-- The content of the first completion: `data?.choices?.[0]?.message?.content`. -/
def firstContent (data : Json) : JSValue :=
  optProp (optProp (optIndex0 (optProp (some data) "choices")) "message") "content"

/-- The reply both callers take from a parsed body:
`data?.choices?.[0]?.message?.content || JSON.stringify(data, null, 2)`. -/
def replyOf (data : Json) : Json :=
  match jsOr (firstContent data) (some (Json.str (JSON.stringify2 data))) with
  | some v => v
  | none => Json.str (JSON.stringify2 data)

/-- `sendChatMessage(messageText)` (`script.js` 95–127), given what the `fetch` gives. -/
def sendChatMessage (E : Engine) (net : FetchOutcome) (messageText : String) (s : App) : App :=
  let s1 := appendChatMessage "user" (some (Json.str messageText)) s
  let s2 : App :=
    { s1 with conversationMessages := s1.conversationMessages ++ [⟨"user", Json.str messageText⟩] }
  match net with
  | FetchOutcome.rejected err => appendChatHtml (errorHtml err) s2
  | FetchOutcome.response res =>
    match JSON.parse res.body with
    | none => appendChatHtml (errorHtml ⟨"SyntaxError", E.syntaxErrorMessage res.body⟩) s2
    | some data =>
      let reply := replyOf data
      let s3 : App :=
        { s2 with conversationMessages := s2.conversationMessages ++ [⟨"assistant", reply⟩] }
      match tryExtractJson E reply with
      | Except.error err => appendChatHtml (errorHtml err) s3
      | Except.ok parsed =>
        if truthy (some parsed) && truthy (getProp parsed "routine") then
          match renderRoutineAsHtml E parsed with
          | Except.error err => appendChatHtml (errorHtml err) s3
          | Except.ok html => appendChatHtml html s3
        else appendChatMessage "assistant" (some reply) s3

/-! ## The selection (`script.js` 240–331) -/

/-- The object handed to `addSelectedProduct`. -/
structure SelectedProduct where
  id : JSValue
  name : JSValue
  brand : JSValue
  image : JSValue
  deriving DecidableEq, Repr

/-- A catalog entry: the members of one object of `products.json`. -/
abbrev Product := List (String × Json)

/-- The element `addSelectedProduct` builds for a product (lines 244–254): the item
carries `data-id`, and so does the remove button inside it. White-space text nodes of the
template are left out. -/
def selectedItem (product : SelectedProduct) : DomNode :=
  DomNode.element "div" [("class", "selected-item"), ("data-id", jsString product.id)]
    [ DomNode.element "img"
        [("src", jsString product.image), ("alt", jsString product.name),
          ("class", "selected-thumb")] [],
      DomNode.element "div" [("class", "selected-info")]
        [ DomNode.element "strong" [] [DomNode.text (jsString product.name)],
          DomNode.element "div" [("class", "small")] [DomNode.text (jsString product.brand)] ],
      DomNode.element "button"
        [("class", "remove-selected"), ("aria-label", "Remove " ++ jsString product.name),
          ("data-id", jsString product.id)]
        [DomNode.text "×"] ]

/-- An attribute value as an element of the array that is stored. -/
def attrJson : Option String → Json
  | some v => Json.str v
  | none => Json.null

/-- The array `saveSelectedIds` builds: the `data-id` of every element below the list
that has one, in document order. -/
def collectedIds (children : List DomNode) : List Json :=
  (querySelectorAll hasDataId children).map fun el => attrJson (el.getAttribute "data-id")

/-- `saveSelectedIds()`. -/
def saveSelectedIds (s : App) : App :=
  { s with localStorage := some (JSON.stringify (Json.arr (collectedIds s.selectedProductsList))) }

/-- `addSelectedProduct(product)`. When the selector of the duplicate guard (line 242) is
rejected the function ends there. -/
def addSelectedProduct (product : SelectedProduct) (s : App) : App :=
  match selectorValue (jsString product.id) with
  | none =>
    { s with rejectedSelectors :=
        s.rejectedSelectors ++ ["[data-id=\"" ++ jsString product.id ++ "\"]"] }
  | some value =>
    if (querySelector (dataIdIs value) s.selectedProductsList).isSome then s
    else
      saveSelectedIds
        { s with selectedProductsList := s.selectedProductsList ++ [selectedItem product] }

/-- The grid after lines 272–276, for a selector that asks for `value`: the first card
with this `data-id` loses its selection. -/
def deselectCard (value : String) : List Card → List Card
  | [] => []
  | c :: cs =>
    if c.dataId = value then
      (if c.selected then { c with selected := false, ariaPressed := "false" } else c) :: cs
    else c :: deselectCard value cs

/-- The grid after lines 307–313, for a selector that asks for `value`: the first card
with this `data-id` becomes selected. -/
def selectCard (value : String) : List Card → List Card
  | [] => []
  | c :: cs =>
    if c.dataId = value then
      (if c.selected then c else { c with selected := true, ariaPressed := "true" }) :: cs
    else c :: selectCard value cs

/-- `removeSelectedProduct(id)`. When the selector of line 268 is rejected the function
ends there; the selector of line 272 has the same quoted string, so it is read the same
way. -/
def removeSelectedProduct (id : JSValue) (s : App) : App :=
  match selectorValue (jsString id) with
  | none =>
    { s with rejectedSelectors := s.rejectedSelectors ++ ["[data-id=\"" ++ jsString id ++ "\"]"] }
  | some value =>
    let s1 : App :=
      match DomNode.removeFirst (dataIdIs value) s.selectedProductsList with
      | some rest => { s with selectedProductsList := rest }
      | none => s
    saveSelectedIds { s1 with productsContainer := deselectCard value s1.productsContainer }

/-- `getStoredSelectedIds()`. -/
def getStoredSelectedIds (s : App) : List Json :=
  match s.localStorage with
  | none => []
  | some raw =>
    if raw = "" then []
    else
      match JSON.parse raw with
      | some (Json.arr items) => items
      | _ => []

/-- The first loop of `restoreSelections` (lines 306–314): the cards after it, and the
selector that was rejected, if one was; the loop ends at the first such selector. -/
def markStoredCards : List Json → List Card → List Card × Option String
  | [], cards => (cards, none)
  | id :: rest, cards =>
    match selectorValue (jsString (some id)) with
    | none => (cards, some (".product-card[data-id=\"" ++ jsString (some id) ++ "\"]"))
    | some value => markStoredCards rest (selectCard value cards)

/-- The second loop of `restoreSelections` (lines 318–329). A rejected selector at line
320 ends the loop. The product handed to `addSelectedProduct` has the identifier text of
the stored entry, so its guard reads the same quoted string and is not rejected. -/
def restoreLoop (all : List Product) : List Json → App → App
  | [], s => s
  | id :: rest, s =>
    match selectorValue (jsString (some id)) with
    | none =>
      { s with rejectedSelectors :=
          s.rejectedSelectors ++ ["[data-id=\"" ++ jsString (some id) ++ "\"]"] }
    | some value =>
      if (querySelector (dataIdIs value) s.selectedProductsList).isSome then
        restoreLoop all rest s
      else
        match all.find? fun x => jsString (getProp (Json.obj x) "id") = jsString (some id) with
        | some p =>
          restoreLoop all rest
            (addSelectedProduct
              ⟨some (Json.str (jsString (getProp (Json.obj p) "id"))),
                getProp (Json.obj p) "name", getProp (Json.obj p) "brand",
                getProp (Json.obj p) "image"⟩ s)
        | none => restoreLoop all rest s

/-- `restoreSelections()`, given the catalog `loadProducts()` resolves with (`none` when it
does not resolve, in which case the second loop never runs). A selector rejected in the
first loop ends the function before `loadProducts()` is called. -/
def restoreSelections (catalog : Option (List Product)) (s : App) : App :=
  let ids := getStoredSelectedIds s
  if ids = [] then s
  else
    match markStoredCards ids s.productsContainer with
    | (cards, some selector) =>
      { s with productsContainer := cards
               rejectedSelectors := s.rejectedSelectors ++ [selector] }
    | (cards, none) =>
      match catalog with
      | none => { s with productsContainer := cards }
      | some all => restoreLoop all ids { s with productsContainer := cards }

/-! ## Routine generation (`script.js` 334–433) -/

/-- The system message of `generateRoutine`. -/
def systemMessage : Message :=
  ⟨"system",
    Json.str ("You are a helpful L'Oreal assistant. When asked to generate a routine, RETURN ONLY valid JSON following this schema: \x7b \"title\": string (optional), \"routine\": [ \x7b \"title\": string, \"instruction\": string \x7d ], \"notes\": string (optional) \x7d. If no routine can be made, return \x7b \"routine\": [] \x7d. Do not include extra text outside the JSON. You may also be asked about specific products or questions about skincare, fragrances, makeup or related things. Be concise, polite and helpful when answering these questions.")⟩

/-- The priming step of `generateRoutine` (lines 368–375): an empty conversation, or one
whose first message is not a system message, is replaced by the system message alone. -/
def ensureSystemPrimed (conversation : List Message) : List Message :=
  match conversation with
  | [] => [systemMessage]
  | first :: rest => if first.role ≠ "system" then [systemMessage] else first :: rest

/-- The identifiers `generateRoutine` collects (lines 336–339). -/
def selectedIdsOf (s : App) : List (Option String) :=
  (querySelectorAll hasDataId s.selectedProductsList).map fun el => el.getAttribute "data-id"

/-- The user message of `generateRoutine` (lines 350–366): the catalog entries whose
identifier is among the collected ones, serialized. -/
def userMessage (selectedIds : List (Option String)) (all : List Product) : Message :=
  let selectedProducts :=
    all.filter fun p => selectedIds.contains (some (jsString (getProp (Json.obj p) "id")))
  ⟨"user", Json.str ("Generate a routine using these selected products (JSON): "
    ++ JSON.stringify (Json.arr (selectedProducts.map Json.obj)))⟩

/-- `generateRoutine()`, given the catalog `loadProducts()` resolves with (`none` when it
does not resolve: the function then ends before it touches the conversation) and what
the `fetch` gives. The button's label and `disabled` flag are restored by the `finally`
block and are not part of the state. -/
def generateRoutine (E : Engine) (catalog : Option (List Product)) (net : FetchOutcome)
    (s : App) : App :=
  let selectedIds := selectedIdsOf s
  if selectedIds = [] then
    appendChatHtml
      "<div class=\"error\">Please select at least one product before generating a routine.</div>" s
  else
    match catalog with
    | none => s
    | some all =>
      let s1 : App :=
        { s with conversationMessages :=
            ensureSystemPrimed s.conversationMessages ++ [userMessage selectedIds all] }
      let s2 := appendChatMessage "user" (some (Json.str "Generate routine for selected products.")) s1
      match net with
      | FetchOutcome.rejected err => appendChatHtml (errorHtml err) s2
      | FetchOutcome.response res =>
        if !res.ok then
          appendChatHtml
            (errorHtml ⟨"Error", if res.body ≠ "" then res.body else "API error " ++ toString res.status⟩)
            s2
        else
          match JSON.parse res.body with
          | none => appendChatHtml (errorHtml ⟨"SyntaxError", E.syntaxErrorMessage res.body⟩) s2
          | some data =>
            let reply := replyOf data
            let s3 : App :=
              { s2 with conversationMessages := s2.conversationMessages ++ [⟨"assistant", reply⟩] }
            match tryExtractJson E reply with
            | Except.error err => appendChatHtml (errorHtml err) s3
            | Except.ok parsed =>
              if truthy (some parsed) && truthy (getProp parsed "routine")
                  && isArray (getProp parsed "routine") then
                match renderRoutineAsHtml E parsed with
                | Except.error err => appendChatHtml (errorHtml err) s3
                | Except.ok html =>
                  let s4 := appendChatHtml html s3
                  if truthy (getProp parsed "notes") then
                    appendChatHtml
                      ("<div class=\"assistant-notes\"><strong>Notes:</strong> "
                        ++ escapeHtml (getProp parsed "notes") ++ "</div>") s4
                  else s4
              else appendChatMessage "assistant" (some reply) s3

/-! ## Sessions -/

/-- The events of a session, each with what the browser supplies to it. -/
inductive Action where
  | send (messageText : String) (net : FetchOutcome)
  | generate (catalog : Option (List Product)) (net : FetchOutcome)
  | add (product : SelectedProduct)
  | remove (id : JSValue)
  | restore (catalog : Option (List Product))

/-- One event. -/
def step (E : Engine) (s : App) : Action → App
  | Action.send messageText net => sendChatMessage E net messageText s
  | Action.generate catalog net => generateRoutine E catalog net s
  | Action.add product => addSelectedProduct product s
  | Action.remove id => removeSelectedProduct id s
  | Action.restore catalog => restoreSelections catalog s

/-- A sequence of events, from left to right. -/
def run (E : Engine) (s : App) (actions : List Action) : App :=
  actions.foldl (step E) s

/-! ## Invariants -/

/-- No message after the first has the role `system`. -/
def SystemOnlyFirst (conversation : List Message) : Prop :=
  ∀ m ∈ conversation.tail, m.role ≠ "system"

/-- The identifiers of the selected items: the `data-id` of each child of the list. -/
def selectedItemIds (s : App) : List String :=
  s.selectedProductsList.filterMap fun item => item.getAttribute "data-id"

/-- The identifier an item is listed under: `String(product.id)`. -/
def SelectedProduct.key (p : SelectedProduct) : String := jsString p.id

/-- The first occurrence of every entry, in order. -/
def firstOccurrences : List String → List String
  | [] => []
  | x :: xs => x :: (firstOccurrences xs).filter (· ≠ x)

/-- Whether some catalog entry has this identifier, compared as strings. -/
def inCatalog (all : List Product) (id : String) : Bool :=
  all.any fun x => jsString (getProp (Json.obj x) "id") = id

/-- The selection the spec asks of rehydration: the persisted identifiers that match a
catalog entry, in the persisted order, each once. -/
def rehydrated (ids : List Json) (all : List Product) : List String :=
  firstOccurrences ((ids.map fun id => jsString (some id)).filter (inCatalog all))

/-! ## The reply interpreter: C1, C2, C3 -/

/-- The empty text is not JSON. -/
theorem JSON.parse_empty : JSON.parse "" = none := by decide

/-- C1. A text that `JSON.parse` accepts with value `v` is answered by `tryExtractJson`
with exactly `v`: the first strategy decides, whatever the fenced-block and brace
strategies would have found. -/
theorem tryExtractJson_valid_json (E : Engine) (t : String) (v : Json)
    (h : JSON.parse t = some v) : tryExtractJson E (Json.str t) = Except.ok v := by
  have hne : t ≠ "" := by
    intro h0
    rw [h0, JSON.parse_empty] at h
    exact Option.noConfusion h
  simp [tryExtractJson, truthy, jsString, Json.toJsString, hne, h]

/-- C1 at the reply of the spec's scenario. -/
theorem tryExtractJson_valid_json_witness :
    JSON.parse "\x7b\"routine\":[\"Apply cleanser\"]\x7d"
        = some (Json.obj [("routine", Json.arr [Json.str "Apply cleanser"])])
      ∧ ∀ E : Engine, tryExtractJson E (Json.str "\x7b\"routine\":[\"Apply cleanser\"]\x7d")
        = Except.ok (Json.obj [("routine", Json.arr [Json.str "Apply cleanser"])]) :=
  ⟨by decide, fun E => tryExtractJson_valid_json E _ _ (by decide)⟩

/-- Unfolding of the lazy group at a non-empty input. -/
theorem lazyInterior_cons (c : Char) (cs : List Char) :
    lazyInterior (c :: cs)
      = if (['\n', '`', '`', '`'] : List Char).isPrefixOf (c :: cs) = true then some []
        else (lazyInterior cs).map (c :: ·) := rfl

/-- The lazy group stops at the first closing fence. -/
theorem lazyInterior_append (i post : List Char)
    (h : ¬ (['\n', '`', '`', '`'] <:+: i)) :
    lazyInterior (i ++ ['\n', '`', '`', '`'] ++ post) = some i := by
  induction i with
  | nil => simp [lazyInterior, List.isPrefixOf]
  | cons c cs ih =>
    have hcs : ¬ (['\n', '`', '`', '`'] <:+: cs) := fun hh =>
      h (hh.trans (List.suffix_cons c cs).isInfix)
    have hpre : (['\n', '`', '`', '`'] : List Char).isPrefixOf
        (c :: (cs ++ ['\n', '`', '`', '`'] ++ post)) = false := by
      rcases cs with _ | ⟨b, _ | ⟨d, _ | ⟨e, r⟩⟩⟩
      · simp [List.isPrefixOf]
      · simp [List.isPrefixOf]
      · simp [List.isPrefixOf]
      · by_contra hp
        simp [List.isPrefixOf] at hp
        obtain ⟨h1, h2, h3, h4⟩ := hp
        subst h1 h2 h3 h4
        exact h ⟨[], r, by simp⟩
    have := ih hcs
    simp only [List.cons_append, List.append_assoc] at this hpre ⊢
    rw [lazyInterior_cons, hpre, this]
    simp

/-- The pattern matches at an opening fence that is followed by its closing. -/
theorem fenceAt_fence (label i post : List Char)
    (hl : label = [] ∨ label = ['j', 's', 'o', 'n'])
    (h : ¬ (['\n', '`', '`', '`'] <:+: i)) :
    fenceAt (['`', '`', '`'] ++ label ++ ['\n'] ++ i ++ ['\n', '`', '`', '`'] ++ post) = some i := by
  have hz := lazyInterior_append i post h
  simp only [List.cons_append, List.append_assoc, List.nil_append, List.singleton_append] at hz ⊢
  rcases hl with rfl | rfl
  · simp [fenceAt, dropLiteral, dropLiteralCI, asciiLower, hz]
  · simp [fenceAt, dropLiteral, dropLiteralCI, asciiLower, hz]

/-- The pattern matches nowhere in a text without three backticks in a row that stands
before an opening fence. -/
theorem fenceFrom_skip (pre rest : List Char) (h : ¬ (['`', '`', '`'] <:+: pre)) :
    fenceFrom (pre ++ ['`', '`', '`'] ++ rest) = fenceFrom (['`', '`', '`'] ++ rest) := by
  induction pre with
  | nil => simp
  | cons c cs ih =>
    have hcs : ¬ (['`', '`', '`'] <:+: cs) := fun hh =>
      h (hh.trans (List.suffix_cons c cs).isInfix)
    have hat : fenceAt (c :: (cs ++ ['`', '`', '`'] ++ rest)) = none := by
      rcases cs with _ | ⟨b, _ | ⟨d, r⟩⟩
      · by_cases hc : c = '`'
        · subst hc; simp [fenceAt, dropLiteral, dropLiteralCI, asciiLower]
        · simp [fenceAt, dropLiteral, hc]
      · by_cases hc : c = '`'
        · by_cases hb : b = '`'
          · subst hc hb; simp [fenceAt, dropLiteral, dropLiteralCI, asciiLower]
          · simp [fenceAt, dropLiteral, hc, hb]
        · simp [fenceAt, dropLiteral, hc]
      · by_cases hc : c = '`'
        · by_cases hb : b = '`'
          · by_cases hd : d = '`'
            · subst hc hb hd
              exact absurd ⟨[], r, by simp⟩ h
            · simp [fenceAt, dropLiteral, hc, hb, hd]
          · simp [fenceAt, dropLiteral, hc, hb]
        · simp [fenceAt, dropLiteral, hc]
    have := ih hcs
    simp only [List.cons_append, List.append_assoc] at this hat ⊢
    rw [fenceFrom, hat]
    simpa using this


/-- The characters of a text with one fenced block. -/
theorem data_fenced (pre label interior post : String) :
    (pre ++ "```" ++ label ++ "\n" ++ interior ++ "\n```" ++ post).data
      = pre.data ++ ['`', '`', '`']
          ++ (label.data ++ ['\n'] ++ interior.data ++ ['\n', '`', '`', '`'] ++ post.data) := by
  simp [String.data_append]

/-- C2, amended. When the text is not JSON itself and its first fenced block (no three
backticks before the opening fence; the fence, an optional `json`, a line feed, the
interior, and the first following line feed with three backticks) has an interior that
is JSON with value `v`, `tryExtractJson` returns `v`. -/
theorem tryExtractJson_first_fence (E : Engine) (pre label interior post : String) (v : Json)
    (hlabel : label = "" ∨ label = "json")
    (hpre : ¬ ("```".data <:+: pre.data))
    (hclose : ¬ ("\n```".data <:+: interior.data))
    (hwhole : JSON.parse (pre ++ "```" ++ label ++ "\n" ++ interior ++ "\n```" ++ post) = none)
    (hv : JSON.parse interior = some v) :
    tryExtractJson E (Json.str (pre ++ "```" ++ label ++ "\n" ++ interior ++ "\n```" ++ post))
      = Except.ok v := by
  have hne : interior ≠ "" := by
    intro h0
    rw [h0, JSON.parse_empty] at hv
    exact Option.noConfusion hv
  have hl : label.data = [] ∨ label.data = ['j', 's', 'o', 'n'] := by
    rcases hlabel with rfl | rfl
    · exact Or.inl rfl
    · exact Or.inr rfl
  have hm : matchFence (pre ++ "```" ++ label ++ "\n" ++ interior ++ "\n```" ++ post)
      = some interior := by
    unfold matchFence
    rw [data_fenced, fenceFrom_skip _ _ hpre]
    have := fenceAt_fence label.data interior.data post.data hl hclose
    simp only [List.cons_append, List.append_assoc, List.nil_append] at this ⊢
    rw [fenceFrom, this]
    rfl
  have htruthy : truthy (some (Json.str
      (pre ++ "```" ++ label ++ "\n" ++ interior ++ "\n```" ++ post))) = true := by
    have : (pre ++ "```" ++ label ++ "\n" ++ interior ++ "\n```" ++ post) ≠ "" := by
      intro h0
      have := congrArg String.data h0
      rw [data_fenced] at this
      simp at this
    simp [truthy, this]
  simp [tryExtractJson, htruthy, jsString, Json.toJsString, hwhole, hm, hne, hv]

/-- C2, amended, at a reply with prose around one fenced block. -/
theorem tryExtractJson_first_fence_witness :
    tryExtractJson ⟨fun _ => "", "", fun _ => ""⟩
        (Json.str ("Here is your routine:\n" ++ "```" ++ "json" ++ "\n"
          ++ "\x7b\"routine\":[]\x7d" ++ "\n```" ++ "\nEnjoy!"))
      = Except.ok (Json.obj [("routine", Json.arr [])]) :=
  tryExtractJson_first_fence _ "Here is your routine:\n" "json" "\x7b\"routine\":[]\x7d"
    "\nEnjoy!" _ (Or.inr rfl) (by decide) (by decide) (by decide) (by decide)

/-- C2 as stated fails: the text is not JSON and contains a block labelled `json` whose
interior `[1]` is JSON, but an earlier block with the interior `foo` is the one the
pattern matches; the brace strategy finds nothing and the result is `null`. -/
theorem tryExtractJson_later_fence_ignored :
    JSON.parse "```\nfoo\n```\n```json\n[1]\n```" = none
      ∧ "```\nfoo\n```\n```json\n[1]\n```" = "```\nfoo\n```\n" ++ "```" ++ "json" ++ "\n" ++ "[1]" ++ "\n```" ++ ""
      ∧ JSON.parse "[1]" = some (Json.arr [Json.num "1"])
      ∧ ∀ E : Engine, tryExtractJson E (Json.str "```\nfoo\n```\n```json\n[1]\n```")
          = Except.ok Json.null := by
  refine ⟨by decide, by decide, by decide, fun E => ?_⟩
  rfl

/-- C3. `tryExtractJson` never throws on a text; when the whole text, the interior of the
first fenced block and the span from the first opening brace to the last closing brace
all fail to parse, it returns `null`; and a result other than `null` is the parse of
the whole text, of that interior, or of that span. -/
theorem tryExtractJson_null_or_parse (E : Engine) (t : String) :
    (∃ r, tryExtractJson E (Json.str t) = Except.ok r)
      ∧ ((JSON.parse t = none
            ∧ (∀ interior, matchFence t = some interior → JSON.parse interior = none)
            ∧ (∀ candidate, braceSpan t = some candidate → JSON.parse candidate = none))
          → tryExtractJson E (Json.str t) = Except.ok Json.null)
      ∧ (∀ v, tryExtractJson E (Json.str t) = Except.ok v → v ≠ Json.null →
          JSON.parse t = some v
            ∨ (∃ interior, matchFence t = some interior ∧ JSON.parse interior = some v)
            ∨ (∃ candidate, braceSpan t = some candidate ∧ JSON.parse candidate = some v)) := by
  by_cases h0 : t = ""
  · simp [tryExtractJson, truthy, h0]
  · cases hp : JSON.parse t with
    | some w => simp [tryExtractJson, truthy, jsString, Json.toJsString, h0, hp]
    | none =>
      cases hm : matchFence t with
      | some interior =>
        by_cases hi : interior = ""
        · cases hb : braceSpan t with
          | some candidate =>
            cases hc : JSON.parse candidate <;>
              simp [tryExtractJson, truthy, jsString, Json.toJsString, h0, hp, hm, hi, hb, hc]
          | none => simp [tryExtractJson, truthy, jsString, Json.toJsString, h0, hp, hm, hi, hb]
        · cases hpi : JSON.parse interior with
          | some w =>
            simp [tryExtractJson, truthy, jsString, Json.toJsString, h0, hp, hm, hi, hpi]
          | none =>
            cases hb : braceSpan t with
            | some candidate =>
              cases hc : JSON.parse candidate <;>
                simp [tryExtractJson, truthy, jsString, Json.toJsString, h0, hp, hm, hi, hpi, hb, hc]
            | none =>
              simp [tryExtractJson, truthy, jsString, Json.toJsString, h0, hp, hm, hi, hpi, hb]
      | none =>
        cases hb : braceSpan t with
        | some candidate =>
          cases hc : JSON.parse candidate <;>
            simp [tryExtractJson, truthy, jsString, Json.toJsString, h0, hp, hm, hb, hc]
        | none => simp [tryExtractJson, truthy, jsString, Json.toJsString, h0, hp, hm, hb]

/-! ## The conversation: C4 -/

/-- Appending a message that is not a system message keeps the invariant. -/
theorem SystemOnlyFirst.push {c : List Message} (h : SystemOnlyFirst c) (m : Message)
    (hm : m.role ≠ "system") : SystemOnlyFirst (c ++ [m]) := by
  cases c with
  | nil => intro x hx; simp at hx
  | cons a as =>
    intro x hx
    simp only [List.cons_append, List.tail_cons, List.mem_append, List.mem_singleton] at hx
    rcases hx with hx | rfl
    · exact h x (by simpa using hx)
    · exact hm

/-- Priming leaves a conversation that starts with a system message unchanged. -/
theorem ensureSystemPrimed_cons_system (a : Message) (as : List Message)
    (h : a.role = "system") : ensureSystemPrimed (a :: as) = a :: as := by
  simp [ensureSystemPrimed, h]

/-- Priming replaces a conversation that starts otherwise by the system message. -/
theorem ensureSystemPrimed_cons_other (a : Message) (as : List Message)
    (h : a.role ≠ "system") : ensureSystemPrimed (a :: as) = [systemMessage] := by
  simp [ensureSystemPrimed, h]

/-- The system message has the role `system`. -/
theorem systemMessage_role : systemMessage.role = "system" := rfl

/-- Priming keeps the invariant. -/
theorem SystemOnlyFirst.primed {c : List Message} (h : SystemOnlyFirst c) :
    SystemOnlyFirst (ensureSystemPrimed c) := by
  cases c with
  | nil => intro x hx; simp [ensureSystemPrimed] at hx
  | cons a as =>
    by_cases ha : a.role = "system"
    · simpa [ensureSystemPrimed, ha] using h
    · intro x hx; simp [ensureSystemPrimed, ha] at hx

/-- `appendChatHtml` leaves the conversation alone. -/
@[simp] theorem appendChatHtml_conversation (html : String) (s : App) :
    (appendChatHtml html s).conversationMessages = s.conversationMessages := rfl

/-- `appendChatMessage` leaves the conversation alone. -/
@[simp] theorem appendChatMessage_conversation (role : String) (text : JSValue) (s : App) :
    (appendChatMessage role text s).conversationMessages = s.conversationMessages := rfl

/-- `saveSelectedIds` leaves the conversation alone. -/
@[simp] theorem saveSelectedIds_conversation (s : App) :
    (saveSelectedIds s).conversationMessages = s.conversationMessages := rfl

/-- `addSelectedProduct` leaves the conversation alone. -/
@[simp] theorem addSelectedProduct_conversation (p : SelectedProduct) (s : App) :
    (addSelectedProduct p s).conversationMessages = s.conversationMessages := by
  unfold addSelectedProduct
  split
  · rfl
  · split <;> rfl

/-- `removeSelectedProduct` leaves the conversation alone. -/
@[simp] theorem removeSelectedProduct_conversation (id : JSValue) (s : App) :
    (removeSelectedProduct id s).conversationMessages = s.conversationMessages := by
  unfold removeSelectedProduct
  split
  · rfl
  · rename_i value _
    cases DomNode.removeFirst (dataIdIs value) s.selectedProductsList <;> rfl

/-- The restore loop leaves the conversation alone. -/
theorem restoreLoop_conversation (all : List Product) :
    ∀ (ids : List Json) (s : App),
      (restoreLoop all ids s).conversationMessages = s.conversationMessages
  | [], _ => rfl
  | id :: rest, s => by
    unfold restoreLoop
    split
    · rfl
    · split
      · exact restoreLoop_conversation all rest s
      · split
        · rw [restoreLoop_conversation all rest]
          exact addSelectedProduct_conversation _ s
        · exact restoreLoop_conversation all rest s

/-- `restoreSelections` leaves the conversation alone. -/
@[simp] theorem restoreSelections_conversation (catalog : Option (List Product)) (s : App) :
    (restoreSelections catalog s).conversationMessages = s.conversationMessages := by
  unfold restoreSelections
  simp only
  split
  · rfl
  · split
    · rfl
    · cases catalog with
      | none => rfl
      | some all => simp [restoreLoop_conversation]

/-- What `sendChatMessage` does to the conversation: the user message, then at most one
assistant message. -/
theorem sendChatMessage_conversation (E : Engine) (net : FetchOutcome) (text : String) (s : App) :
    (sendChatMessage E net text s).conversationMessages
        = s.conversationMessages ++ [⟨"user", Json.str text⟩]
      ∨ ∃ reply, (sendChatMessage E net text s).conversationMessages
        = s.conversationMessages ++ [⟨"user", Json.str text⟩] ++ [⟨"assistant", reply⟩] := by
  unfold sendChatMessage
  cases net with
  | rejected err => left; rfl
  | response res =>
    simp only
    cases JSON.parse res.body with
    | none => left; rfl
    | some data =>
      right
      refine ⟨replyOf data, ?_⟩
      simp only
      cases tryExtractJson E (replyOf data) with
      | error err => rfl
      | ok parsed =>
        simp only
        split
        · cases renderRoutineAsHtml E parsed <;> rfl
        · rfl

/-- What `generateRoutine` does to the conversation: nothing, or priming followed by the
user message and at most one assistant message. -/
theorem generateRoutine_conversation (E : Engine) (catalog : Option (List Product))
    (net : FetchOutcome) (s : App) :
    (generateRoutine E catalog net s).conversationMessages = s.conversationMessages
      ∨ (∃ u, (generateRoutine E catalog net s).conversationMessages
          = ensureSystemPrimed s.conversationMessages ++ [⟨"user", u⟩])
      ∨ ∃ u reply, (generateRoutine E catalog net s).conversationMessages
          = ensureSystemPrimed s.conversationMessages ++ [⟨"user", u⟩] ++ [⟨"assistant", reply⟩] := by
  unfold generateRoutine
  simp only
  split
  · left; rfl
  · cases catalog with
    | none => left; rfl
    | some all =>
      simp only
      cases net with
      | rejected err => right; left; exact ⟨(userMessage (selectedIdsOf s) all).content, rfl⟩
      | response res =>
        simp only
        split
        · right; left; exact ⟨(userMessage (selectedIdsOf s) all).content, rfl⟩
        · cases JSON.parse res.body with
          | none => right; left; exact ⟨(userMessage (selectedIdsOf s) all).content, rfl⟩
          | some data =>
            right; right
            refine ⟨(userMessage (selectedIdsOf s) all).content, replyOf data, ?_⟩
            simp only
            cases tryExtractJson E (replyOf data) with
            | error err => rfl
            | ok parsed =>
              simp only
              split
              · cases renderRoutineAsHtml E parsed with
                | error e => rfl
                | ok html =>
                  simp only
                  split <;> rfl
              · rfl

/-- Every event keeps the invariant. -/
theorem step_systemOnlyFirst (E : Engine) (s : App) (a : Action)
    (h : SystemOnlyFirst s.conversationMessages) :
    SystemOnlyFirst (step E s a).conversationMessages := by
  cases a with
  | send text net =>
    rcases sendChatMessage_conversation E net text s with h1 | ⟨r, h1⟩
    · simp only [step]; rw [h1]; exact h.push _ (by simp)
    · simp only [step]; rw [h1]; exact (h.push _ (by simp)).push _ (by simp)
  | generate catalog net =>
    rcases generateRoutine_conversation E catalog net s with h1 | ⟨u, h1⟩ | ⟨u, r, h1⟩
    · simp only [step]; rw [h1]; exact h
    · simp only [step]; rw [h1]; exact h.primed.push _ (by simp)
    · simp only [step]; rw [h1]; exact (h.primed.push _ (by simp)).push _ (by simp)
  | add p => simpa [step] using h
  | remove id => simpa [step] using h
  | restore catalog => simpa [step] using h

/-- Every session keeps the invariant. -/
theorem run_systemOnlyFirst (E : Engine) (actions : List Action) (s : App)
    (h : SystemOnlyFirst s.conversationMessages) :
    SystemOnlyFirst (run E s actions).conversationMessages := by
  induction actions generalizing s with
  | nil => exact h
  | cons a rest ih => exact ih _ (step_systemOnlyFirst E s a h)

/-- Priming is idempotent. -/
theorem ensureSystemPrimed_idem (c : List Message) :
    ensureSystemPrimed (ensureSystemPrimed c) = ensureSystemPrimed c := by
  cases c with
  | nil => rfl
  | cons a as =>
    by_cases ha : a.role = "system"
    · rw [ensureSystemPrimed_cons_system a as ha, ensureSystemPrimed_cons_system a as ha]
    · rw [ensureSystemPrimed_cons_other a as ha]; rfl

/-- C4. In every state reached from the loaded page by sends, routine generations and
selection events, priming the conversation twice gives what priming once gives, and the
primed conversation has exactly one message with the role `system`, at index 0. -/
theorem ensureSystemPrimed_reachable (E : Engine) (actions : List Action) :
    ensureSystemPrimed (ensureSystemPrimed (run E App.init actions).conversationMessages)
        = ensureSystemPrimed (run E App.init actions).conversationMessages
      ∧ (ensureSystemPrimed (run E App.init actions).conversationMessages).countP
          (fun m => m.role = "system") = 1
      ∧ ((ensureSystemPrimed (run E App.init actions).conversationMessages).head?).map
          Message.role = some "system" := by
  have hinv : SystemOnlyFirst (run E App.init actions).conversationMessages :=
    run_systemOnlyFirst E actions App.init (by intro m hm; simp [App.init] at hm)
  refine ⟨ensureSystemPrimed_idem _, ?_, ?_⟩
  · cases hc : (run E App.init actions).conversationMessages with
    | nil => decide
    | cons a as =>
      rw [hc] at hinv
      by_cases ha : a.role = "system"
      · have hz : as.countP (fun m => m.role = "system") = 0 := by
          rw [List.countP_eq_zero]
          intro m hm
          simpa using hinv m (by simpa using hm)
        rw [ensureSystemPrimed_cons_system a as ha]
        simp [List.countP_cons, hz, ha]
      · rw [ensureSystemPrimed_cons_other a as ha]; decide
  · cases hc : (run E App.init actions).conversationMessages with
    | nil => decide
    | cons a as =>
      by_cases ha : a.role = "system"
      · rw [ensureSystemPrimed_cons_system a as ha]; simp [ha]
      · rw [ensureSystemPrimed_cons_other a as ha]; decide

/-! ## The completion endpoint: C5 -/

/-- The conversation after `sendChatMessage` when the body parses: the user message and
the reply, whatever the status of the response. -/
theorem sendChatMessage_conversation_parsed (E : Engine) (res : Response) (text : String)
    (s : App) (data : Json) (h : JSON.parse res.body = some data) :
    (sendChatMessage E (FetchOutcome.response res) text s).conversationMessages
      = s.conversationMessages ++ [⟨"user", Json.str text⟩, ⟨"assistant", replyOf data⟩] := by
  unfold sendChatMessage
  simp only [h]
  cases tryExtractJson E (replyOf data) with
  | error err => simp [appendChatMessage]
  | ok parsed =>
    simp only
    split
    · cases renderRoutineAsHtml E parsed <;> simp [appendChatMessage]
    · simp [appendChatMessage]

/-- The conversation after `generateRoutine` when the response is a success and its body
parses: priming, the user message and the reply. -/
theorem generateRoutine_conversation_parsed (E : Engine) (all : List Product) (res : Response)
    (s : App) (data : Json) (hsel : selectedIdsOf s ≠ []) (hok : res.ok = true)
    (h : JSON.parse res.body = some data) :
    (generateRoutine E (some all) (FetchOutcome.response res) s).conversationMessages
      = ensureSystemPrimed s.conversationMessages
          ++ [userMessage (selectedIdsOf s) all, ⟨"assistant", replyOf data⟩] := by
  unfold generateRoutine
  simp only [hsel, hok, h, if_false, Bool.not_true, Bool.false_eq_true]
  cases tryExtractJson E (replyOf data) with
  | error err => simp [appendChatMessage, appendChatHtml]
  | ok parsed =>
    simp only
    split
    · cases renderRoutineAsHtml E parsed with
      | error e => simp [appendChatMessage, appendChatHtml]
      | ok html =>
        simp only
        split <;> simp [appendChatMessage, appendChatHtml]
    · simp [appendChatMessage, appendChatHtml]

/-- The chat window after `sendChatMessage` when the reply is shown as text. -/
theorem sendChatMessage_chat_plain (E : Engine) (res : Response) (text : String) (s : App)
    (data parsed : Json) (h : JSON.parse res.body = some data)
    (hx : tryExtractJson E (replyOf data) = Except.ok parsed)
    (hr : (truthy (some parsed) && truthy (getProp parsed "routine")) = false) :
    (sendChatMessage E (FetchOutcome.response res) text s).chatWindow
      = s.chatWindow
          ++ [⟨"chat-msg user", "<div class=\"chat-user\">" ++ escapeHtml (some (Json.str text))
                ++ "</div>"⟩,
              ⟨"chat-msg assistant", "<div class=\"chat-assistant\">"
                ++ jsString (some (replyOf data)) ++ "</div>"⟩] := by
  unfold sendChatMessage
  simp [h, hx, hr, appendChatMessage]

/-- The chat window after `sendChatMessage` when the reply is rendered as a routine. -/
theorem sendChatMessage_chat_rendered (E : Engine) (res : Response) (text : String) (s : App)
    (data parsed : Json) (html : String) (h : JSON.parse res.body = some data)
    (hx : tryExtractJson E (replyOf data) = Except.ok parsed)
    (hr : (truthy (some parsed) && truthy (getProp parsed "routine")) = true)
    (hh : renderRoutineAsHtml E parsed = Except.ok html) :
    (sendChatMessage E (FetchOutcome.response res) text s).chatWindow
      = s.chatWindow
          ++ [⟨"chat-msg user", "<div class=\"chat-user\">" ++ escapeHtml (some (Json.str text))
                ++ "</div>"⟩,
              ⟨"chat-html", html⟩] := by
  unfold sendChatMessage
  simp [h, hx, hr, hh, appendChatMessage, appendChatHtml]

/-- The chat window after `generateRoutine` when the reply is shown as text. -/
theorem generateRoutine_chat_plain (E : Engine) (all : List Product) (res : Response) (s : App)
    (data parsed : Json) (hsel : selectedIdsOf s ≠ []) (hok : res.ok = true)
    (h : JSON.parse res.body = some data)
    (hx : tryExtractJson E (replyOf data) = Except.ok parsed)
    (hr : (truthy (some parsed) && truthy (getProp parsed "routine")
            && isArray (getProp parsed "routine")) = false) :
    (generateRoutine E (some all) (FetchOutcome.response res) s).chatWindow
      = s.chatWindow
          ++ [⟨"chat-msg user", "<div class=\"chat-user\">"
                ++ escapeHtml (some (Json.str "Generate routine for selected products."))
                ++ "</div>"⟩,
              ⟨"chat-msg assistant", "<div class=\"chat-assistant\">"
                ++ jsString (some (replyOf data)) ++ "</div>"⟩] := by
  unfold generateRoutine
  simp [hsel, hok, h, hx, hr, appendChatMessage]

/-- `generateRoutine` on a response without success status: no assistant message, and an
error node with the body, or with the status code when the body is empty. -/
theorem generateRoutine_chat_error (E : Engine) (all : List Product) (res : Response) (s : App)
    (hsel : selectedIdsOf s ≠ []) (hok : res.ok = false) :
    generateRoutine E (some all) (FetchOutcome.response res) s
      = { s with
          conversationMessages :=
            ensureSystemPrimed s.conversationMessages ++ [userMessage (selectedIdsOf s) all]
          chatWindow := s.chatWindow
            ++ [⟨"chat-msg user", "<div class=\"chat-user\">"
                  ++ escapeHtml (some (Json.str "Generate routine for selected products."))
                  ++ "</div>"⟩,
                ⟨"chat-html", "<div class=\"error\">"
                  ++ escapeHtml (some (Json.str ("Error: "
                      ++ (if res.body ≠ "" then res.body else "API error " ++ toString res.status))))
                  ++ "</div>"⟩] } := by
  unfold generateRoutine
  have hmsg : ¬ (if res.body = "" then "API error " ++ toString res.status else res.body) = "" := by
    split
    · intro h0
      have := congrArg String.data h0
      simp [String.data_append] at this
    · assumption
  simp [hsel, hok, appendChatMessage, appendChatHtml, errorHtml, JSError.toString, hmsg]

/-- C5 fails for follow-up messages: `sendChatMessage` never looks at the status. A 500
response whose body is the JSON text of an error object is taken for a reply: its
serialization is appended to the conversation as an assistant message and shown as
assistant text, not as an error. -/
theorem sendChatMessage_error_status_appends_assistant (E : Engine) (messageText : String)
    (s : App) :
    Response.ok ⟨500, "\x7b\"error\":\"quota exceeded\"\x7d"⟩ = false
      ∧ (sendChatMessage E (FetchOutcome.response ⟨500, "\x7b\"error\":\"quota exceeded\"\x7d"⟩)
            messageText s).conversationMessages
          = s.conversationMessages
              ++ [⟨"user", Json.str messageText⟩,
                  ⟨"assistant", Json.str "\x7b\n  \"error\": \"quota exceeded\"\n\x7d"⟩]
      ∧ (sendChatMessage E (FetchOutcome.response ⟨500, "\x7b\"error\":\"quota exceeded\"\x7d"⟩)
            messageText s).chatWindow
          = s.chatWindow
              ++ [⟨"chat-msg user", "<div class=\"chat-user\">"
                    ++ escapeHtml (some (Json.str messageText)) ++ "</div>"⟩,
                  ⟨"chat-msg assistant",
                    "<div class=\"chat-assistant\">\x7b\n  \"error\": \"quota exceeded\"\n\x7d</div>"⟩] := by
  refine ⟨by decide, ?_, ?_⟩
  · rw [sendChatMessage_conversation_parsed E _ messageText s
      (Json.obj [("error", Json.str "quota exceeded")]) (by decide)]
    rfl
  · rw [sendChatMessage_chat_plain E _ messageText s
      (Json.obj [("error", Json.str "quota exceeded")])
      (Json.obj [("error", Json.str "quota exceeded")]) (by decide) rfl (by decide)]
    rfl

/-- `sendChatMessage` on a body that is not JSON, whatever the status: `res.json()` throws,
no assistant message is appended, and the error node shows the engine's `SyntaxError`. -/
theorem sendChatMessage_unparsable_body (E : Engine) (res : Response) (text : String) (s : App)
    (h : JSON.parse res.body = none) :
    sendChatMessage E (FetchOutcome.response res) text s
      = { s with
          conversationMessages := s.conversationMessages ++ [⟨"user", Json.str text⟩]
          chatWindow := s.chatWindow
            ++ [⟨"chat-msg user", "<div class=\"chat-user\">" ++ escapeHtml (some (Json.str text))
                  ++ "</div>"⟩,
                ⟨"chat-html", errorHtml ⟨"SyntaxError", E.syntaxErrorMessage res.body⟩⟩] } := by
  unfold sendChatMessage
  simp [h, appendChatMessage, appendChatHtml]

/-- The spec's scenario on the generation path: status 500 with the body `quota exceeded`
gives an error node that contains the body, and no assistant message. -/
theorem generateRoutine_quota_exceeded :
    (generateRoutine ⟨fun _ => "", "", fun _ => ""⟩
        (some [[("id", Json.num "1"), ("name", Json.str "Cleanser")]])
        (FetchOutcome.response ⟨500, "quota exceeded"⟩)
        (addSelectedProduct
          ⟨some (Json.str "1"), some (Json.str "Cleanser"), some (Json.str "X"),
            some (Json.str "c.png")⟩ App.init)).chatWindow
        = [⟨"chat-msg user", "<div class=\"chat-user\">Generate routine for selected products.</div>"⟩,
            ⟨"chat-html", "<div class=\"error\">Error: quota exceeded</div>"⟩]
      ∧ ((generateRoutine ⟨fun _ => "", "", fun _ => ""⟩
        (some [[("id", Json.num "1"), ("name", Json.str "Cleanser")]])
        (FetchOutcome.response ⟨500, "quota exceeded"⟩)
        (addSelectedProduct
          ⟨some (Json.str "1"), some (Json.str "Cleanser"), some (Json.str "X"),
            some (Json.str "c.png")⟩ App.init)).conversationMessages.map Message.role)
        = ["system", "user"] := by
  refine ⟨by decide, by decide⟩

/-! ## Rendering of replies: C6 -/

/-- `renderRoutineAsHtml` on an object whose `routine` is not an array: an optional
heading, then the object pretty-printed inside `<pre>`. -/
theorem renderRoutineAsHtml_non_array (E : Engine) (members : List (String × Json)) (r : Json)
    (hr : getProp (Json.obj members) "routine" = some r) (ha : isArray (some r) = false) :
    renderRoutineAsHtml E (Json.obj members)
      = Except.ok ("<div class=\"chat-msg assistant\"><div class=\"chat-assistant\">"
          ++ (if truthy (getProp (Json.obj members) "title") then
                "<h3>" ++ escapeHtml (getProp (Json.obj members) "title") ++ "</h3>"
              else "")
          ++ ("<pre>" ++ escapeHtml (some (Json.str (JSON.stringify2 (Json.obj members))))
                ++ "</pre>")
          ++ "</div></div>") := by
  unfold renderRoutineAsHtml
  simp only [hr]
  cases r with
  | arr items => simp [isArray] at ha
  | _ => rfl

/-- C6, amended. When `tryExtractJson` extracts from the reply an object whose `routine`
field is truthy and not an array, `sendChatMessage` shows the object pretty-printed in
the `<pre>` branch of `renderRoutineAsHtml` (after a heading when it has a truthy
`title`), and `generateRoutine`, whose guard also asks for an array, shows the raw reply
as assistant text. -/
theorem non_array_routine_rendering (E : Engine) (text : String) (all : List Product)
    (res : Response) (s : App) (data : Json) (members : List (String × Json)) (r : Json)
    (h : JSON.parse res.body = some data)
    (hx : tryExtractJson E (replyOf data) = Except.ok (Json.obj members))
    (hr : getProp (Json.obj members) "routine" = some r)
    (ht : truthy (some r) = true) (ha : isArray (some r) = false) :
    (sendChatMessage E (FetchOutcome.response res) text s).chatWindow
        = s.chatWindow
            ++ [⟨"chat-msg user", "<div class=\"chat-user\">" ++ escapeHtml (some (Json.str text))
                  ++ "</div>"⟩,
                ⟨"chat-html", "<div class=\"chat-msg assistant\"><div class=\"chat-assistant\">"
                  ++ (if truthy (getProp (Json.obj members) "title") then
                        "<h3>" ++ escapeHtml (getProp (Json.obj members) "title") ++ "</h3>"
                      else "")
                  ++ ("<pre>" ++ escapeHtml (some (Json.str (JSON.stringify2 (Json.obj members))))
                        ++ "</pre>")
                  ++ "</div></div>"⟩]
      ∧ (selectedIdsOf s ≠ [] → res.ok = true →
          (generateRoutine E (some all) (FetchOutcome.response res) s).chatWindow
            = s.chatWindow
                ++ [⟨"chat-msg user", "<div class=\"chat-user\">"
                      ++ escapeHtml (some (Json.str "Generate routine for selected products."))
                      ++ "</div>"⟩,
                    ⟨"chat-msg assistant", "<div class=\"chat-assistant\">"
                      ++ jsString (some (replyOf data)) ++ "</div>"⟩]) := by
  constructor
  · exact sendChatMessage_chat_rendered E res text s data (Json.obj members) _ h hx
      (by rw [hr, ht]; rfl) (renderRoutineAsHtml_non_array E members r hr ha)
  · intro hsel hok
    exact generateRoutine_chat_plain E all res s data (Json.obj members) hsel hok h hx
      (by simp [hr, ha])

/-- C6, amended, at a follow-up reply `\x7b"routine":"x"\x7d`. -/
theorem non_array_routine_rendering_witness :
    (sendChatMessage ⟨fun _ => "", "", fun _ => ""⟩
        (FetchOutcome.response ⟨200,
          "\x7b\"choices\":[\x7b\"message\":\x7b\"content\":\"\x7b\\\"routine\\\":\\\"x\\\"\x7d\"\x7d\x7d]\x7d"⟩)
        "And then?" App.init).chatWindow
      = [⟨"chat-msg user", "<div class=\"chat-user\">And then?</div>"⟩,
          ⟨"chat-html", "<div class=\"chat-msg assistant\"><div class=\"chat-assistant\">"
            ++ "<pre>\x7b\n  &quot;routine&quot;: &quot;x&quot;\n\x7d</pre></div></div>"⟩] :=
  (non_array_routine_rendering ⟨fun _ => "", "", fun _ => ""⟩ "And then?" []
    ⟨200, "\x7b\"choices\":[\x7b\"message\":\x7b\"content\":\"\x7b\\\"routine\\\":\\\"x\\\"\x7d\"\x7d\x7d]\x7d"⟩
    App.init
    (Json.obj [("choices", Json.arr [Json.obj [("message",
      Json.obj [("content", Json.str "\x7b\"routine\":\"x\"\x7d")])]])])
    [("routine", Json.str "x")] (Json.str "x")
    (by decide) (by decide) (by decide) (by decide) (by decide)).1.trans (by decide)

/-- C6 as stated fails for `generateRoutine`: the reply parses to an object whose `routine`
is the string `x`, `renderRoutineAsHtml` would print it inside `<pre>`, but the guard
`Array.isArray(parsed.routine)` sends it to the fallback and the raw reply is shown as
assistant text. -/
theorem generateRoutine_non_array_routine_shown_raw :
    JSON.parse "\x7b\"choices\":[\x7b\"message\":\x7b\"content\":\"\x7b\\\"routine\\\":\\\"x\\\"\x7d\"\x7d\x7d]\x7d"
        = some (Json.obj [("choices", Json.arr [Json.obj [("message",
            Json.obj [("content", Json.str "\x7b\"routine\":\"x\"\x7d")])]])])
      ∧ tryExtractJson ⟨fun _ => "", "", fun _ => ""⟩ (Json.str "\x7b\"routine\":\"x\"\x7d")
        = Except.ok (Json.obj [("routine", Json.str "x")])
      ∧ renderRoutineAsHtml ⟨fun _ => "", "", fun _ => ""⟩ (Json.obj [("routine", Json.str "x")])
        = Except.ok ("<div class=\"chat-msg assistant\"><div class=\"chat-assistant\">"
            ++ "<pre>\x7b\n  &quot;routine&quot;: &quot;x&quot;\n\x7d</pre></div></div>")
      ∧ (generateRoutine ⟨fun _ => "", "", fun _ => ""⟩
          (some [[("id", Json.num "1"), ("name", Json.str "Cleanser")]])
          (FetchOutcome.response ⟨200,
            "\x7b\"choices\":[\x7b\"message\":\x7b\"content\":\"\x7b\\\"routine\\\":\\\"x\\\"\x7d\"\x7d\x7d]\x7d"⟩)
          (addSelectedProduct
            ⟨some (Json.str "1"), some (Json.str "Cleanser"), some (Json.str "X"),
              some (Json.str "c.png")⟩ App.init)).chatWindow
        = [⟨"chat-msg user", "<div class=\"chat-user\">Generate routine for selected products.</div>"⟩,
            ⟨"chat-msg assistant", "<div class=\"chat-assistant\">\x7b\"routine\":\"x\"\x7d</div>"⟩] := by
  refine ⟨by decide, by decide, by decide, by decide⟩

/-! ## The reply text: C7 -/

/-- A truthy content of the first completion is the reply. -/
theorem replyOf_truthy (data v : Json) (hc : firstContent data = some v)
    (ht : truthy (some v) = true) : replyOf data = v := by
  simp [replyOf, jsOr, hc, ht]

/-- Without a truthy content the reply is the serialized body. -/
theorem replyOf_falsy (data : Json) (ht : truthy (firstContent data) = false) :
    replyOf data = Json.str (JSON.stringify2 data) := by
  simp [replyOf, jsOr, ht]

/-- C7, amended. When the first completion of a parsed body carries a non-empty string
content `c`, the reply is exactly `c`, and `c` is the content of the assistant message
that `sendChatMessage` and (on a success status, with a product selected)
`generateRoutine` append to the conversation. -/
theorem reply_is_first_content (data : Json) (c : String)
    (hc : firstContent data = some (Json.str c)) (hne : c ≠ "") :
    replyOf data = Json.str c
      ∧ (∀ (E : Engine) (res : Response) (text : String) (s : App),
          JSON.parse res.body = some data →
          (sendChatMessage E (FetchOutcome.response res) text s).conversationMessages
            = s.conversationMessages ++ [⟨"user", Json.str text⟩, ⟨"assistant", Json.str c⟩])
      ∧ (∀ (E : Engine) (all : List Product) (res : Response) (s : App),
          selectedIdsOf s ≠ [] → res.ok = true → JSON.parse res.body = some data →
          (generateRoutine E (some all) (FetchOutcome.response res) s).conversationMessages
            = ensureSystemPrimed s.conversationMessages
                ++ [userMessage (selectedIdsOf s) all, ⟨"assistant", Json.str c⟩]) := by
  have hr : replyOf data = Json.str c := replyOf_truthy data _ hc (by simp [truthy, hne])
  refine ⟨hr, ?_, ?_⟩
  · intro E res text s h
    rw [sendChatMessage_conversation_parsed E res text s data h, hr]
  · intro E all res s hsel hok h
    rw [generateRoutine_conversation_parsed E all res s data hsel hok h, hr]

/-- C7, amended, at a body whose first completion says `Use it daily.` -/
theorem reply_is_first_content_witness :
    replyOf (Json.obj [("choices", Json.arr [Json.obj [("message",
        Json.obj [("content", Json.str "Use it daily.")])]])])
      = Json.str "Use it daily." :=
  (reply_is_first_content
    (Json.obj [("choices", Json.arr [Json.obj [("message",
        Json.obj [("content", Json.str "Use it daily.")])]])])
    "Use it daily." (by decide) (by decide)).1

/-- C7 as stated fails at the empty string: the body's first completion carries the
string content `""`, which `||` takes for absent, so the reply and the assistant
message appended are the pretty-printed body. -/
theorem reply_empty_content_falls_back :
    JSON.parse "\x7b\"choices\":[\x7b\"message\":\x7b\"content\":\"\"\x7d\x7d]\x7d"
        = some (Json.obj [("choices", Json.arr [Json.obj [("message",
            Json.obj [("content", Json.str "")])]])])
      ∧ firstContent (Json.obj [("choices", Json.arr [Json.obj [("message",
            Json.obj [("content", Json.str "")])]])]) = some (Json.str "")
      ∧ replyOf (Json.obj [("choices", Json.arr [Json.obj [("message",
            Json.obj [("content", Json.str "")])]])])
          = Json.str "\x7b\n  \"choices\": [\n    \x7b\n      \"message\": \x7b\n        \"content\": \"\"\n      \x7d\n    \x7d\n  ]\n\x7d"
      ∧ (sendChatMessage ⟨fun _ => "", "", fun _ => ""⟩
          (FetchOutcome.response ⟨200,
            "\x7b\"choices\":[\x7b\"message\":\x7b\"content\":\"\"\x7d\x7d]\x7d"⟩)
          "hello" App.init).conversationMessages
          = [⟨"user", Json.str "hello"⟩,
              ⟨"assistant", Json.str "\x7b\n  \"choices\": [\n    \x7b\n      \"message\": \x7b\n        \"content\": \"\"\n      \x7d\n    \x7d\n  ]\n\x7d"⟩] := by
  refine ⟨by decide, by decide, by decide, by decide⟩

/-! ## The selection: C8 -/

/-- The elements of two lists of trees, one after the other. -/
theorem subtrees_append (xs ys : List DomNode) :
    DomNode.subtrees (xs ++ ys) = DomNode.subtrees xs ++ DomNode.subtrees ys := by
  induction xs with
  | nil => simp [DomNode.subtrees]
  | cons x xs ih => simp [DomNode.subtrees, ih]

/-- An item carries the identifier of its product. -/
theorem getAttribute_selectedItem (p : SelectedProduct) :
    (selectedItem p).getAttribute "data-id" = some p.key := by
  simp [selectedItem, DomNode.getAttribute, SelectedProduct.key]

/-- Looking for an identifier inside one item finds the item itself or nothing. -/
theorem find_subtree_selectedItem (p : SelectedProduct) (x : String) :
    (DomNode.subtree (selectedItem p)).find? (dataIdIs x)
      = if p.key = x then some (selectedItem p) else none := by
  by_cases h : p.key = x
  · have h2 : jsString p.id = x := h
    simp [selectedItem, DomNode.subtree, DomNode.subtrees, dataIdIs, DomNode.getAttribute,
      SelectedProduct.key, h2, List.find?]
  · have h2 : ¬ jsString p.id = x := h
    simp [selectedItem, DomNode.subtree, DomNode.subtrees, dataIdIs, DomNode.getAttribute,
      SelectedProduct.key, h2, List.find?]

/-- Looking for an identifier in a list of items finds the first item of that identifier. -/
theorem querySelector_items (ps : List SelectedProduct) (x : String) :
    querySelector (dataIdIs x) (ps.map selectedItem)
      = (ps.find? fun p => p.key = x).map selectedItem := by
  induction ps with
  | nil => simp [querySelector, DomNode.subtrees]
  | cons p ps ih =>
    simp only [querySelector] at ih ⊢
    simp only [List.map_cons, DomNode.subtrees, List.find?_append, find_subtree_selectedItem]
    by_cases h : p.key = x
    · simp [h, List.find?]
    · simp [h, List.find?, ih]

/-- Detaching by identifier from a list of items erases the first item of that identifier. -/
theorem removeFirst_items (ps : List SelectedProduct) (x : String) :
    DomNode.removeFirst (dataIdIs x) (ps.map selectedItem)
      = if (ps.any fun p => p.key = x) then
          some ((ps.eraseP fun p => p.key = x).map selectedItem)
        else none := by
  induction ps with
  | nil => simp [DomNode.removeFirst]
  | cons p ps ih =>
    by_cases h : p.key = x
    · have h2 : jsString p.id = x := h
      simp [selectedItem, DomNode.removeFirst, matchesSelector, dataIdIs, DomNode.getAttribute,
        h, h2]
    · have h2 : ¬ jsString p.id = x := h
      have ih2 := ih
      simp only [selectedItem] at ih2
      simp [selectedItem, DomNode.removeFirst, DomNode.removeBelow, matchesSelector, dataIdIs,
        DomNode.getAttribute, h, h2, ih2]

/-- When nothing matches in a list of trees, nothing matches at the first root, below it, or in the rest. -/
theorem find_subtrees_cons_element (sel : DomNode → Bool) (t : String)
    (a : List (String × String)) (cs ns : List DomNode)
    (h : (DomNode.subtrees (DomNode.element t a cs :: ns)).find? sel = none) :
    sel (DomNode.element t a cs) = false ∧ (DomNode.subtrees cs).find? sel = none
      ∧ (DomNode.subtrees ns).find? sel = none := by
  simp only [DomNode.subtrees, DomNode.subtree, List.cons_append, List.find?_cons,
    List.find?_append] at h
  cases hs : sel (DomNode.element t a cs) with
  | true => simp [hs] at h
  | false =>
    simp only [hs] at h
    cases hf : (DomNode.subtrees cs).find? sel with
    | none => exact ⟨rfl, rfl, by simpa [hf] using h⟩
    | some v => simp [hf] at h

/-- When nothing matches, nothing is detached. -/
theorem removeFirst_none (sel : DomNode → Bool) :
    ∀ l : List DomNode, (DomNode.subtrees l).find? sel = none → DomNode.removeFirst sel l = none
  | [], _ => by simp [DomNode.removeFirst]
  | DomNode.text d :: ns, h => by
    have h2 : (DomNode.subtrees ns).find? sel = none := by
      simpa [DomNode.subtrees, DomNode.subtree] using h
    simp [DomNode.removeFirst, DomNode.removeBelow, matchesSelector, removeFirst_none sel ns h2]
  | DomNode.element t a cs :: ns, h => by
    obtain ⟨hs, hc, hn⟩ := find_subtrees_cons_element sel t a cs ns h
    simp [DomNode.removeFirst, DomNode.removeBelow, matchesSelector, hs,
      removeFirst_none sel cs hc, removeFirst_none sel ns hn]
termination_by l => sizeOf l
decreasing_by
  all_goals simp_wf
  all_goals omega

/-- When nothing matches in a list and a matching element is appended, detaching gives the list back. -/
theorem removeFirst_append_root (sel : DomNode → Bool) (t : String)
    (a : List (String × String)) (cs : List DomNode) (hroot : sel (DomNode.element t a cs) = true) :
    ∀ l : List DomNode, (DomNode.subtrees l).find? sel = none →
      DomNode.removeFirst sel (l ++ [DomNode.element t a cs]) = some l
  | [], _ => by simp [DomNode.removeFirst, matchesSelector, hroot]
  | DomNode.text d :: ns, h => by
    have h2 : (DomNode.subtrees ns).find? sel = none := by
      simpa [DomNode.subtrees, DomNode.subtree] using h
    simp [DomNode.removeFirst, DomNode.removeBelow, matchesSelector,
      removeFirst_append_root sel t a cs hroot ns h2]
  | DomNode.element t2 a2 cs2 :: ns, h => by
    obtain ⟨hs, hc, hn⟩ := find_subtrees_cons_element sel t2 a2 cs2 ns h
    simp [DomNode.removeFirst, DomNode.removeBelow, matchesSelector, hs,
      removeFirst_none sel cs2 hc, removeFirst_append_root sel t a cs hroot ns hn]


/-- The identifiers of a list of items are the keys of the products. -/
theorem selectedItemIds_items (s : App) (ps : List SelectedProduct)
    (h : s.selectedProductsList = ps.map selectedItem) :
    selectedItemIds s = ps.map SelectedProduct.key := by
  unfold selectedItemIds
  rw [h]
  clear h
  induction ps with
  | nil => rfl
  | cons p ps ih =>
    simp only [List.map_cons, List.filterMap_cons, getAttribute_selectedItem]
    exact congrArg _ ih

/-- An identifier is not found in a list of items exactly when no product has that key. -/
theorem querySelector_items_none (ps : List SelectedProduct) (x : String) :
    querySelector (dataIdIs x) (ps.map selectedItem) = none ↔ x ∉ ps.map SelectedProduct.key := by
  rw [querySelector_items]
  simp [List.find?_eq_none]

/-- Preprocessing leaves a plain identifier as it is. -/
theorem cssPreprocess_plain (cs : List Char) (afterCR : Bool)
    (h : (cs.all fun c =>
      c ≠ '"' ∧ c ≠ '\\' ∧ c ≠ '\n' ∧ c ≠ '\r' ∧ c.toNat ≠ 12 ∧ c.toNat ≠ 0) = true) :
    cssPreprocess afterCR cs = cs := by
  induction cs generalizing afterCR with
  | nil => rfl
  | cons c cs ih =>
    simp only [List.all_cons, Bool.and_eq_true, decide_eq_true_eq] at h
    obtain ⟨⟨-, -, h3, h4, h5, h6⟩, hrest⟩ := h
    simp [cssPreprocess, h3, h4, h5, h6, ih _ hrest]

/-- A quoted string reads a plain identifier as itself. -/
theorem cssString_plain (cs : List Char)
    (h : (cs.all fun c =>
      c ≠ '"' ∧ c ≠ '\\' ∧ c ≠ '\n' ∧ c ≠ '\r' ∧ c.toNat ≠ 12 ∧ c.toNat ≠ 0) = true) :
    cssString CssState.text cs = some cs := by
  induction cs with
  | nil => rfl
  | cons c cs ih =>
    simp only [List.all_cons, Bool.and_eq_true, decide_eq_true_eq] at h
    obtain ⟨⟨h1, h2, h3, -, -, -⟩, hrest⟩ := h
    simp [cssString, h1, h2, h3, ih hrest]

/-- The selector built from a plain identifier asks for exactly that identifier. -/
theorem selectorValue_plain (id : String) (h : plainIdentifier id = true) :
    selectorValue id = some id := by
  unfold plainIdentifier at h
  unfold selectorValue
  rw [cssPreprocess_plain _ _ h, cssString_plain _ h]
  rfl

/-- The children of the list after `addSelectedProduct` when its selector asks for
`value`. -/
theorem addSelectedProduct_list (p : SelectedProduct) (s : App) (value : String)
    (hv : selectorValue (jsString p.id) = some value) :
    (addSelectedProduct p s).selectedProductsList
      = if (querySelector (dataIdIs value) s.selectedProductsList).isSome then
          s.selectedProductsList
        else s.selectedProductsList ++ [selectedItem p] := by
  unfold addSelectedProduct
  rw [hv]
  simp only
  split <;> rfl

/-- The children of the list after `removeSelectedProduct` when its selector asks for
`value`. -/
theorem removeSelectedProduct_list (id : JSValue) (s : App) (value : String)
    (hv : selectorValue (jsString id) = some value) :
    (removeSelectedProduct id s).selectedProductsList
      = match DomNode.removeFirst (dataIdIs value) s.selectedProductsList with
        | some rest => rest
        | none => s.selectedProductsList := by
  unfold removeSelectedProduct
  rw [hv]
  simp only
  cases DomNode.removeFirst (dataIdIs value) s.selectedProductsList <;> rfl

/-- The selector for a product's identifier matches its item. -/
theorem dataIdIs_selectedItem (p : SelectedProduct) :
    dataIdIs (jsString p.id) (selectedItem p) = true := by
  simp [dataIdIs, selectedItem, DomNode.getAttribute]

/-- No element carries the identifier: the lookup finds nothing. -/
theorem querySelector_none_of_forall (x : String) (children : List DomNode)
    (h : ∀ el ∈ DomNode.subtrees children, el.getAttribute "data-id" ≠ some x) :
    querySelector (dataIdIs x) children = none := by
  unfold querySelector
  rw [List.find?_eq_none]
  intro el hel
  simpa [dataIdIs] using h el hel

/-- C8, amended. For every state of the page and every product whose identifier has no
double quote, backslash, line feed, carriage return, form feed or NUL and is not yet
carried by an element of the selected list, `addSelectedProduct` followed by
`removeSelectedProduct` of its identifier leaves the ordered list of selected identifiers,
and the children of the list element, as they were. -/
theorem add_then_remove (p : SelectedProduct) (s : App)
    (hplain : plainIdentifier (jsString p.id) = true)
    (hnew : ∀ el ∈ DomNode.subtrees s.selectedProductsList,
      el.getAttribute "data-id" ≠ some (jsString p.id)) :
    selectedItemIds (removeSelectedProduct p.id (addSelectedProduct p s)) = selectedItemIds s
      ∧ (removeSelectedProduct p.id (addSelectedProduct p s)).selectedProductsList
        = s.selectedProductsList := by
  have hv := selectorValue_plain _ hplain
  have hq := querySelector_none_of_forall _ _ hnew
  have hl : (removeSelectedProduct p.id (addSelectedProduct p s)).selectedProductsList
      = s.selectedProductsList := by
    rw [removeSelectedProduct_list _ _ _ hv, addSelectedProduct_list _ _ _ hv, hq]
    simp only [Option.isSome_none, Bool.false_eq_true, if_false]
    have hr := dataIdIs_selectedItem p
    unfold selectedItem at hr ⊢
    rw [removeFirst_append_root _ _ _ _ hr s.selectedProductsList hq]
  exact ⟨by unfold selectedItemIds; rw [hl], hl⟩

/-- C8, amended, at a selection holding product 1 and a new product 2. -/
theorem add_then_remove_witness :
    selectedItemIds (removeSelectedProduct (some (Json.str "2"))
        (addSelectedProduct ⟨some (Json.str "2"), some (Json.str "Serum"), some (Json.str "Y"),
            some (Json.str "s.png")⟩
          (run ⟨fun _ => "", "", fun _ => ""⟩ App.init
            [Action.add ⟨some (Json.str "1"), some (Json.str "Cleanser"), some (Json.str "X"),
              some (Json.str "c.png")⟩])))
      = selectedItemIds (run ⟨fun _ => "", "", fun _ => ""⟩ App.init
          [Action.add ⟨some (Json.str "1"), some (Json.str "Cleanser"), some (Json.str "X"),
            some (Json.str "c.png")⟩]) :=
  (add_then_remove
    ⟨some (Json.str "2"), some (Json.str "Serum"), some (Json.str "Y"), some (Json.str "s.png")⟩
    (run ⟨fun _ => "", "", fun _ => ""⟩ App.init
      [Action.add ⟨some (Json.str "1"), some (Json.str "Cleanser"), some (Json.str "X"),
        some (Json.str "c.png")⟩])
    (by decide) (by decide)).1

/-- For a list of items, "carried by no element" says that the identifier is not among
the selected ones. -/
theorem not_carried_iff_not_selected (s : App) (ps : List SelectedProduct) (x : String)
    (h : s.selectedProductsList = ps.map selectedItem) :
    (∀ el ∈ DomNode.subtrees s.selectedProductsList, el.getAttribute "data-id" ≠ some x)
      ↔ x ∉ selectedItemIds s := by
  rw [selectedItemIds_items s ps h, ← querySelector_items_none, ← h]
  unfold querySelector
  rw [List.find?_eq_none]
  simp [dataIdIs]

/-- The slip that the amended C8 leaves out: with the identifier `a\b` the selector asks
for `a` followed by U+000B, so the duplicate guard misses the item that is there, a
second item is appended, and `removeSelectedProduct` removes nothing. -/
theorem backslash_identifier_escapes_guard :
    selectorValue "a\\b" = some (String.mk ['a', Char.ofNat 11])
      ∧ selectedItemIds (addSelectedProduct
          ⟨some (Json.str "a\\b"), some (Json.str "Cleanser"), some (Json.str "X"),
            some (Json.str "c.png")⟩
          (addSelectedProduct
            ⟨some (Json.str "a\\b"), some (Json.str "Cleanser"), some (Json.str "X"),
              some (Json.str "c.png")⟩ App.init)) = ["a\\b", "a\\b"]
      ∧ selectedItemIds (removeSelectedProduct (some (Json.str "a\\b"))
          (addSelectedProduct
            ⟨some (Json.str "a\\b"), some (Json.str "Cleanser"), some (Json.str "X"),
              some (Json.str "c.png")⟩ App.init)) = ["a\\b"] := by
  refine ⟨by decide, by decide, by decide⟩

/-- C8 as stated fails for a product that is selected already: with product 1 selected,
`addSelectedProduct` of product 1 is a no-op and `removeSelectedProduct` then removes it,
so the selection goes from `["1"]` to `[]`. -/
theorem add_then_remove_selected_product :
    selectedItemIds (run ⟨fun _ => "", "", fun _ => ""⟩ App.init
        [Action.add ⟨some (Json.str "1"), some (Json.str "Cleanser"), some (Json.str "X"),
          some (Json.str "c.png")⟩]) = ["1"]
      ∧ selectedItemIds (removeSelectedProduct (some (Json.str "1"))
          (addSelectedProduct ⟨some (Json.str "1"), some (Json.str "Cleanser"),
              some (Json.str "X"), some (Json.str "c.png")⟩
            (run ⟨fun _ => "", "", fun _ => ""⟩ App.init
              [Action.add ⟨some (Json.str "1"), some (Json.str "Cleanser"), some (Json.str "X"),
                some (Json.str "c.png")⟩]))) = [] := by
  refine ⟨by decide, by decide⟩

/-! ## What is stored: C9 -/

/-- Inside one item two elements carry `data-id`: the item and its remove button. -/
theorem subtree_selectedItem_ids (p : SelectedProduct) :
    ((DomNode.subtree (selectedItem p)).filter hasDataId).map
        (fun el => attrJson (el.getAttribute "data-id"))
      = [Json.str p.key, Json.str p.key] := by
  simp [selectedItem, DomNode.subtree, DomNode.subtrees, hasDataId, DomNode.getAttribute,
    attrJson, SelectedProduct.key, List.filter]

/-- For a list of items, `saveSelectedIds` collects every identifier twice. -/
theorem collectedIds_items (ps : List SelectedProduct) :
    collectedIds (ps.map selectedItem)
      = ps.flatMap fun p => [Json.str p.key, Json.str p.key] := by
  unfold collectedIds querySelectorAll
  induction ps with
  | nil => rfl
  | cons p ps ih =>
    simp only [List.map_cons, DomNode.subtrees, List.filter_append, List.map_append,
      subtree_selectedItem_ids, List.flatMap_cons, ih]

/-- C9 fails: after `addSelectedProduct` of product 1 on the loaded page one item is
selected, and the array `saveSelectedIds` writes is `["1","1"]`: the selector
`[data-id]` also matches the remove button inside the item. -/
theorem saveSelectedIds_stores_each_id_twice :
    selectedItemIds (addSelectedProduct
        ⟨some (Json.str "1"), some (Json.str "Cleanser"), some (Json.str "X"),
          some (Json.str "c.png")⟩ App.init) = ["1"]
      ∧ (addSelectedProduct
          ⟨some (Json.str "1"), some (Json.str "Cleanser"), some (Json.str "X"),
            some (Json.str "c.png")⟩ App.init).localStorage = some "[\"1\",\"1\"]"
      ∧ JSON.parse "[\"1\",\"1\"]" = some (Json.arr [Json.str "1", Json.str "1"]) := by
  refine ⟨by decide, by decide, by decide⟩

/-! ## Rehydration: C10 -/

/-- Keeping first occurrences keeps the entries. -/
theorem mem_firstOccurrences (xs : List String) (x : String) :
    x ∈ firstOccurrences xs ↔ x ∈ xs := by
  induction xs with
  | nil => simp [firstOccurrences]
  | cons a as ih =>
    simp only [firstOccurrences, List.mem_cons, List.mem_filter, ih]
    by_cases h : x = a
    · simp [h]
    · simp [h]

/-- Keeping first occurrences leaves no entry twice. -/
theorem nodup_firstOccurrences (xs : List String) : (firstOccurrences xs).Nodup := by
  induction xs with
  | nil => simp [firstOccurrences]
  | cons a as ih =>
    simp only [firstOccurrences, List.nodup_cons, List.mem_filter]
    exact ⟨by simp, ih.filter _⟩

/-- Keeping first occurrences keeps the order. -/
theorem sublist_firstOccurrences (xs : List String) : (firstOccurrences xs).Sublist xs := by
  induction xs with
  | nil => simp [firstOccurrences]
  | cons a as ih =>
    simp only [firstOccurrences]
    exact ((List.filter_sublist _).trans ih).cons₂ a

/-- The first occurrences not yet listed, one identifier further. -/
theorem firstOccurrences_filter_cons (inCat : String → Bool) (L : List String) (a : String)
    (xs : List String) :
    (firstOccurrences ((a :: xs).filter inCat)).filter (fun x => decide (x ∉ L))
      = if a ∈ L then (firstOccurrences (xs.filter inCat)).filter (fun x => decide (x ∉ L))
        else if inCat a then
          a :: (firstOccurrences (xs.filter inCat)).filter (fun x => decide (x ∉ L ++ [a]))
        else (firstOccurrences (xs.filter inCat)).filter (fun x => decide (x ∉ L)) := by
  by_cases hc : inCat a = true
  · by_cases hL : a ∈ L
    · rw [if_pos hL, List.filter_cons_of_pos hc]
      simp only [firstOccurrences, List.filter_cons, hL, not_true_eq_false, decide_False,
        Bool.false_eq_true, if_false, List.filter_filter]
      apply List.filter_congr
      intro x _
      by_cases hx : x ∈ L
      · simp [hx]
      · have : x ≠ a := fun h => hx (h ▸ hL)
        simp [hx, this]
    · rw [if_neg hL, if_pos hc, List.filter_cons_of_pos hc]
      simp only [firstOccurrences, List.filter_cons, hL, not_false_eq_true, decide_True,
        if_true, List.filter_filter]
      congr 1
      apply List.filter_congr
      intro x _
      by_cases hx : x ∈ L
      · simp [hx]
      · by_cases hxa : x = a
        · simp [hxa]
        · simp [hx, hxa]
  · have hc2 : inCat a = false := by simpa using hc
    rw [List.filter_cons_of_neg hc]
    simp [hc2]

/-- On plain identifiers the first loop rejects no selector. -/
theorem markStoredCards_plain :
    ∀ (ids : List Json) (cards : List Card),
      (∀ id ∈ ids, plainIdentifier (jsString (some id)) = true) →
      (markStoredCards ids cards).2 = none
  | [], _, _ => rfl
  | id :: rest, cards, h => by
    unfold markStoredCards
    rw [selectorValue_plain _ (h id (List.mem_cons_self _ _))]
    exact markStoredCards_plain rest _ fun x hx => h x (List.mem_cons_of_mem _ hx)

/-- The restore loop on plain identifiers, on the identifiers: what was listed, then the
first occurrences of the stored identifiers that match the catalog and were not listed. -/
theorem restoreLoop_ids (all : List Product) :
    ∀ (ids : List Json) (s : App) (ps : List SelectedProduct),
      (∀ id ∈ ids, plainIdentifier (jsString (some id)) = true) →
      s.selectedProductsList = ps.map selectedItem →
      selectedItemIds (restoreLoop all ids s)
        = ps.map SelectedProduct.key
            ++ (firstOccurrences ((ids.map fun id => jsString (some id)).filter
                  (inCatalog all))).filter (fun x => decide (x ∉ ps.map SelectedProduct.key))
  | [], s, ps, _, h => by
    simp [restoreLoop, firstOccurrences, selectedItemIds_items s ps h]
  | id :: rest, s, ps, hplain, h => by
    have hrest : ∀ x ∈ rest, plainIdentifier (jsString (some x)) = true :=
      fun x hx => hplain x (List.mem_cons_of_mem _ hx)
    have hv := selectorValue_plain _ (hplain id (List.mem_cons_self _ _))
    rw [List.map_cons, firstOccurrences_filter_cons]
    unfold restoreLoop
    rw [hv]
    simp only
    by_cases hin : jsString (some id) ∈ ps.map SelectedProduct.key
    · have hq : (querySelector (dataIdIs (jsString (some id))) s.selectedProductsList).isSome
          = true := by
        rw [h]
        cases hc : querySelector (dataIdIs (jsString (some id))) (ps.map selectedItem) with
        | none => exact absurd hin ((querySelector_items_none ps _).1 hc)
        | some v => rfl
      rw [if_pos hq, if_pos hin]
      exact restoreLoop_ids all rest s ps hrest h
    · have hq : querySelector (dataIdIs (jsString (some id))) s.selectedProductsList = none := by
        rw [h]; exact (querySelector_items_none ps _).2 hin
      rw [hq, if_neg hin]
      simp only [Option.isSome_none, Bool.false_eq_true, if_false]
      cases hf : all.find? (fun x => jsString (getProp (Json.obj x) "id") = jsString (some id)) with
      | none =>
        have hcat : ¬ inCatalog all (jsString (some id)) = true := by
          unfold inCatalog
          rw [List.find?_eq_none] at hf
          simpa using hf
        rw [if_neg hcat]
        exact restoreLoop_ids all rest s ps hrest h
      | some p =>
        have hp2 : jsString (getProp (Json.obj p) "id") = jsString (some id) := by
          simpa using List.find?_some hf
        have hcat : inCatalog all (jsString (some id)) = true := by
          unfold inCatalog
          rw [List.any_eq_true]
          exact ⟨p, List.mem_of_find?_eq_some hf, by simpa using hp2⟩
        have hkey : jsString (some (Json.str (jsString (getProp (Json.obj p) "id"))))
            = jsString (some id) := by
          rw [← hp2]
          simp [jsString, Json.toJsString]
        have hlist : (addSelectedProduct
            ⟨some (Json.str (jsString (getProp (Json.obj p) "id"))),
              getProp (Json.obj p) "name", getProp (Json.obj p) "brand",
              getProp (Json.obj p) "image"⟩ s).selectedProductsList
            = (ps ++ [(⟨some (Json.str (jsString (getProp (Json.obj p) "id"))),
                getProp (Json.obj p) "name", getProp (Json.obj p) "brand",
                getProp (Json.obj p) "image"⟩ : SelectedProduct)]).map selectedItem := by
          rw [addSelectedProduct_list _ _ (jsString (some id)) (by rw [hkey]; exact hv), hq]
          simp [h]
        rw [if_pos hcat, restoreLoop_ids all rest _ _ hrest hlist]
        simp only [List.map_append, List.map_singleton, List.append_assoc, List.singleton_append,
          SelectedProduct.key, hkey]

/-- What rehydration does on plain identifiers: on an empty selection, with stored
identifiers free of double quote, backslash, line break and NUL, `restoreSelections`
selects exactly the stored identifiers that match a catalog entry when compared as
strings, in stored order and each once. -/
theorem restoreSelections_rehydrates_plain (all : List Product) (s : App)
    (hempty : s.selectedProductsList = [])
    (hplain : ∀ id ∈ getStoredSelectedIds s, plainIdentifier (jsString (some id)) = true) :
    selectedItemIds (restoreSelections (some all) s) = rehydrated (getStoredSelectedIds s) all
      ∧ (selectedItemIds (restoreSelections (some all) s)).Nodup
      ∧ ∀ x, x ∈ selectedItemIds (restoreSelections (some all) s)
          ↔ x ∈ ((getStoredSelectedIds s).map fun id => jsString (some id))
              ∧ inCatalog all x = true := by
  have hids : selectedItemIds (restoreSelections (some all) s)
      = rehydrated (getStoredSelectedIds s) all := by
    unfold restoreSelections
    by_cases h0 : getStoredSelectedIds s = []
    · simp [h0, rehydrated, firstOccurrences, selectedItemIds, hempty]
    · simp only [if_neg h0]
      have hm := markStoredCards_plain (getStoredSelectedIds s) s.productsContainer hplain
      cases hmc : markStoredCards (getStoredSelectedIds s) s.productsContainer with
      | mk cards rejected =>
        rw [hmc] at hm
        simp only at hm
        subst hm
        simp only
        rw [restoreLoop_ids all _ _ [] hplain (by simpa using hempty)]
        simp [rehydrated]
  rw [hids]
  refine ⟨rfl, nodup_firstOccurrences _, ?_⟩
  intro x
  simp only [rehydrated, mem_firstOccurrences, List.mem_filter]

/-- C10 fails for an identifier with a backslash. Selecting the product `a\b` stores its
identifier (twice, see C9); on reload, with that stored list and the product in the
catalog, the selectors of lines 320 and 242 ask for `a` followed by U+000B and miss the
item just added, so the identifier is restored twice, where the claim says once. -/
theorem restoreSelections_restores_backslash_identifier_twice :
    (addSelectedProduct
        ⟨some (Json.str "a\\b"), some (Json.str "Cleanser"), some (Json.str "X"),
          some (Json.str "c.png")⟩ App.init).localStorage = some "[\"a\\\\b\",\"a\\\\b\"]"
      ∧ getStoredSelectedIds { App.init with localStorage := some "[\"a\\\\b\",\"a\\\\b\"]" }
          = [Json.str "a\\b", Json.str "a\\b"]
      ∧ rehydrated [Json.str "a\\b", Json.str "a\\b"]
          [[("id", Json.str "a\\b"), ("name", Json.str "Cleanser")]] = ["a\\b"]
      ∧ selectedItemIds (restoreSelections
          (some [[("id", Json.str "a\\b"), ("name", Json.str "Cleanser")]])
          { App.init with localStorage := some "[\"a\\\\b\",\"a\\\\b\"]" })
          = ["a\\b", "a\\b"] := by
  refine ⟨by decide, by decide, by decide, by decide⟩

/-- C10 also fails for a stored identifier with a double quote: the selector of line 307
is rejected, the function ends before the catalog is loaded, and product 1, stored and in
the catalog, is not restored. -/
theorem restoreSelections_rejects_quoted_identifier :
    getStoredSelectedIds { App.init with localStorage := some "[\"a\\\"b\",\"1\"]" }
        = [Json.str "a\"b", Json.str "1"]
      ∧ rehydrated [Json.str "a\"b", Json.str "1"]
          [[("id", Json.num "1"), ("name", Json.str "Cleanser")]] = ["1"]
      ∧ selectedItemIds (restoreSelections
          (some [[("id", Json.num "1"), ("name", Json.str "Cleanser")]])
          { App.init with localStorage := some "[\"a\\\"b\",\"1\"]" }) = []
      ∧ (restoreSelections
          (some [[("id", Json.num "1"), ("name", Json.str "Cleanser")]])
          { App.init with localStorage := some "[\"a\\\"b\",\"1\"]" }).rejectedSelectors
          = [".product-card[data-id=\"a\"b\"]"] := by
  refine ⟨by decide, by decide, by decide, by decide⟩

/-- The spec's scenario, where the code does what C10 says: stored `["1","2"]` and a
catalog with product 1 only restore `["1"]`. -/
theorem restoreSelections_stale_identifier_dropped :
    selectedItemIds (restoreSelections
        (some [[("id", Json.num "1"), ("name", Json.str "Cleanser"), ("brand", Json.str "X"),
          ("category", Json.str "skincare")]])
        { App.init with localStorage := some "[\"1\",\"2\"]" }) = ["1"] :=
  (restoreSelections_rehydrates_plain
    [[("id", Json.num "1"), ("name", Json.str "Cleanser"), ("brand", Json.str "X"),
      ("category", Json.str "skincare")]]
    { App.init with localStorage := some "[\"1\",\"2\"]" } rfl (by decide)).1.trans (by decide)

end RoutineBuilder
